import Mathlib

/-!
# GRANSAC: a shallow embedding of the estimation engine and the line model

Sources embedded here:
* `include/AbstractModel.hpp` : `VPFloat`, `AbstractParameter`, `AbstractModel`
* `examples/LineModel.hpp`    : `Point2D`, `Line2DModel`
* `include/GRANSAC.hpp`       : `RANSAC<T, t_NumParams>`

Conventions.
* `VPFloat` is `double`. Finite values are exact rationals (rounding and overflow of
  binary64 are left out); the IEEE 754 special values and the rules that produce them are
  kept, because the code reaches them (0/0 in `Evaluate` on an empty batch, a zero
  x-difference in `Initialize`). Zero carries no sign.
* Where rounding and overflow matter (the sign of a distance), the arithmetic is a
  parameter too: `FloatOps` holds the six operations `Line2DModel` uses and
  `FloatOps.IEEE` what is used of them, which binary64 meets with its rounding and its
  overflow to an infinity.
* A `std::shared_ptr<AbstractParameter>` is the value it points to; an occurrence of an
  observation is a position of a list.
* A C++ exception is an `Except.error`. Inside the OpenMP loop of `Estimate` nothing
  catches, so an exception of a trial ends the call without a return value. What a
  call that throws leaves of the estimator is part of `RANSAC.Reachable`.
* `int` counters are below 2^31 and do not wrap.
* What the C++ standard library supplies is a parameter: `sqrtFin` for `sqrt` on finite
  values, a `Shuffler` for `std::shuffle` with the random engines. The theorems hold for
  every such parameter; the examples run with the instances `sqrtQ` and `rotShuffler`.
-/

namespace GRANSAC

/-- `typedef double VPFloat;` -/
inductive VPFloat where
  | fin (q : ℚ)
  | pinf
  | ninf
  | nan
  deriving DecidableEq

namespace VPFloat

/-- Conversion `VPFloat(n)` of an integer count. -/
def ofNat (n : Nat) : VPFloat := fin (n : ℚ)

/-- Unary minus. -/
def neg : VPFloat → VPFloat
  | fin q => fin (-q)
  | pinf => ninf
  | ninf => pinf
  | nan => nan

/-- Addition `a + b`: inf + (-inf) is NaN. -/
def add : VPFloat → VPFloat → VPFloat
  | fin a, fin b => fin (a + b)
  | fin _, pinf => pinf
  | fin _, ninf => ninf
  | pinf, fin _ => pinf
  | pinf, pinf => pinf
  | ninf, fin _ => ninf
  | ninf, ninf => ninf
  | pinf, ninf => nan
  | ninf, pinf => nan
  | nan, _ => nan
  | _, nan => nan

/-- Subtraction `a - b`. -/
def sub (a b : VPFloat) : VPFloat := add a (neg b)

/-- The infinity with the sign of `q` times the sign `pos`; NaN for `q = 0` (0 * inf). -/
def infTimes (q : ℚ) (pos : Bool) : VPFloat :=
  if q = 0 then nan else if (decide (0 < q)) = pos then pinf else ninf

/-- Multiplication `a * b`: 0 * inf is NaN. -/
def mul : VPFloat → VPFloat → VPFloat
  | fin a, fin b => fin (a * b)
  | fin a, pinf => infTimes a true
  | fin a, ninf => infTimes a false
  | pinf, fin b => infTimes b true
  | ninf, fin b => infTimes b false
  | pinf, pinf => pinf
  | ninf, ninf => pinf
  | pinf, ninf => ninf
  | ninf, pinf => ninf
  | nan, _ => nan
  | _, nan => nan

/-- Division `a / b`: 0/0 and inf/inf are NaN, x/0 is an infinity for x other than 0. -/
def div : VPFloat → VPFloat → VPFloat
  | fin a, fin b =>
    if b = 0 then (if a = 0 then nan else if 0 < a then pinf else ninf) else fin (a / b)
  | fin _, pinf => fin 0
  | fin _, ninf => fin 0
  | pinf, fin b => if 0 ≤ b then pinf else ninf
  | ninf, fin b => if 0 ≤ b then ninf else pinf
  | pinf, pinf => nan
  | pinf, ninf => nan
  | ninf, pinf => nan
  | ninf, ninf => nan
  | nan, _ => nan
  | _, nan => nan

/-- The C library function `fabs`. -/
def fabs : VPFloat → VPFloat
  | fin q => fin |q|
  | pinf => pinf
  | ninf => pinf
  | nan => nan

/-- The C library function `sqrt`. On a finite non-negative value its result is given by
`sqrtFin`, the library routine, which is not part of the repository and is a parameter. -/
def sqrt (sqrtFin : ℚ → ℚ) : VPFloat → VPFloat
  | fin q => if q < 0 then nan else fin (sqrtFin q)
  | pinf => pinf
  | ninf => nan
  | nan => nan

/-- Comparison `a < b`: false when either side is NaN. -/
def lt : VPFloat → VPFloat → Bool
  | fin a, fin b => decide (a < b)
  | fin _, pinf => true
  | ninf, fin _ => true
  | ninf, pinf => true
  | _, _ => false

/-- Comparison `a <= b`: false when either side is NaN. -/
def le : VPFloat → VPFloat → Bool
  | fin a, fin b => decide (a ≤ b)
  | fin _, pinf => true
  | ninf, fin _ => true
  | ninf, pinf => true
  | pinf, pinf => true
  | ninf, ninf => true
  | _, _ => false

/-- The test `std::isfinite`. -/
def isFinite : VPFloat → Bool
  | fin _ => true
  | _ => false

/-- The test `std::isnan`. -/
def isNaN : VPFloat → Bool
  | nan => true
  | _ => false

end VPFloat

/-- The C++ exceptions the code can raise. -/
inductive Exn where
  /-- `std::runtime_error`: "Number of input parameters does not match minimum number
  required for this model." -/
  | sampleSizeMismatch
  /-- `std::runtime_error`: "InputParams type mismatch. It is not a Point2D." -/
  | inputTypeMismatch
  /-- `std::runtime_error`: "ComputeDistanceMeasure() - Passed parameter are not of type
  Point2D." -/
  | distanceTypeMismatch
  /-- `std::length_error` of `std::vector<VPFloat>(n)` for an `n` beyond `max_size()`,
  which is what a negative `int` converts to. -/
  | lengthError
  /-- Any other exception of a model class. -/
  | other (code : Nat)
  deriving DecidableEq

end GRANSAC

deriving instance DecidableEq for Except

/-- `class Point2D : public GRANSAC::AbstractParameter` with its member `m_Point2D`. -/
structure Point2D where
  x : GRANSAC.VPFloat
  y : GRANSAC.VPFloat
  deriving DecidableEq

namespace GRANSAC

/-- What a `std::shared_ptr<AbstractParameter>` points to: a `Point2D`, or something on
which `std::dynamic_pointer_cast<Point2D>` gives `nullptr` (another subclass, or null). -/
inductive AbstractParameter where
  | point2D (p : Point2D)
  | notPoint2D (id : Nat)
  deriving DecidableEq

/-- `std::dynamic_pointer_cast<Point2D>(Param)`; `none` is `nullptr`. -/
def AbstractParameter.asPoint2D : AbstractParameter → Option Point2D
  | .point2D p => some p
  | .notPoint2D _ => none

end GRANSAC

open GRANSAC

/-- `class Line2DModel : public GRANSAC::AbstractModel<2>`: the member variables. -/
structure Line2DModel where
  /-- `AbstractModel<2>::m_MinModelParams` -/
  m_MinModelParams : List AbstractParameter
  m_a : VPFloat
  m_b : VPFloat
  m_c : VPFloat
  /-- `= sqrt(a^2 + b^2)`, cached -/
  m_DistDenominator : VPFloat
  /-- slope -/
  m_m : VPFloat
  /-- intercept -/
  m_d : VPFloat
  deriving DecidableEq

namespace Line2DModel

/-- `Line2DModel::ComputeDistanceMeasure`: the distance between the passed point and this
line, `fabs(a x + b y + c) / m_DistDenominator`; throws when the parameter is no `Point2D`. -/
def ComputeDistanceMeasure (self : Line2DModel) (Param : AbstractParameter) :
    Except Exn VPFloat :=
  match Param.asPoint2D with
  | none => .error .distanceTypeMismatch
  | some ExtPoint2D =>
    let Numer := VPFloat.fabs
      (VPFloat.add (VPFloat.add (VPFloat.mul self.m_a ExtPoint2D.x)
        (VPFloat.mul self.m_b ExtPoint2D.y)) self.m_c)
    let Dist := VPFloat.div Numer self.m_DistDenominator
    .ok Dist

/-- `Line2DModel::Initialize`, which is all the constructor `Line2DModel(InputParams)`
does. Both throws come before the first write, so the result does not depend on the
members the object had before. -/
def Initialize (sqrtFin : ℚ → ℚ) (InputParams : List AbstractParameter) :
    Except Exn Line2DModel :=
  match InputParams with
  | [p0, p1] =>
    match p0.asPoint2D, p1.asPoint2D with
    | some Point1, some Point2 =>
      let m_m := VPFloat.div (VPFloat.sub Point2.y Point1.y) (VPFloat.sub Point2.x Point1.x)
      let m_d := VPFloat.sub Point1.y (VPFloat.mul m_m Point1.x)
      let m_a := m_m
      let m_b := VPFloat.fin (-1)
      let m_c := m_d
      .ok { m_MinModelParams := InputParams
            m_a := m_a
            m_b := m_b
            m_c := m_c
            m_DistDenominator :=
              VPFloat.sqrt sqrtFin (VPFloat.add (VPFloat.mul m_a m_a) (VPFloat.mul m_b m_b))
            m_m := m_m
            m_d := m_d }
    | _, _ => .error .inputTypeMismatch
  | _ => .error .sampleSizeMismatch

/-- The range-for of `Line2DModel::Evaluate` over the parameters still to visit, with the
local variables `Inliers` and `nInliers`. -/
def evaluateLoop (self : Line2DModel) (Threshold : VPFloat) :
    List AbstractParameter → List AbstractParameter → Nat →
      Except Exn (List AbstractParameter × Nat)
  | [], Inliers, nInliers => .ok (Inliers, nInliers)
  | Param :: rest, Inliers, nInliers =>
    match self.ComputeDistanceMeasure Param with
    | .error e => .error e
    | .ok d =>
      if VPFloat.lt d Threshold then
        evaluateLoop self Threshold rest (Inliers ++ [Param]) (nInliers + 1)
      else
        evaluateLoop self Threshold rest Inliers nInliers

/-- `Line2DModel::Evaluate`: the pair (inlier fraction, inliers). -/
def Evaluate (self : Line2DModel) (EvaluateParams : List AbstractParameter)
    (Threshold : VPFloat) : Except Exn (VPFloat × List AbstractParameter) :=
  let nTotalParams := EvaluateParams.length
  match evaluateLoop self Threshold EvaluateParams [] 0 with
  | .error e => .error e
  | .ok (Inliers, nInliers) =>
    let InlierFraction := VPFloat.div (VPFloat.ofNat nInliers) (VPFloat.ofNat nTotalParams)
    .ok (InlierFraction, Inliers)

end Line2DModel

namespace GRANSAC

/-- The operations on `VPFloat` that `Line2DModel` uses: `+`, `-`, `*`, `/`, `fabs` and
`sqrt`, as a parameter. The operations of `VPFloat` above compute finite results exactly;
those of binary64 round them and turn a result beyond the largest finite value into an
infinity. -/
structure FloatOps where
  add : VPFloat → VPFloat → VPFloat
  sub : VPFloat → VPFloat → VPFloat
  mul : VPFloat → VPFloat → VPFloat
  div : VPFloat → VPFloat → VPFloat
  fabs : VPFloat → VPFloat
  sqrt : VPFloat → VPFloat

namespace FloatOps

/-- What is used of the operations, each a property of IEEE 754 arithmetic with rounding
to nearest: a square is NaN or at least 0; (-1) * (-1) is 1; adding 1 to a value that is
NaN or at least 0 gives NaN or at least 1; the square root of a value that is NaN or at
least 1 is NaN or at least 1; `fabs` gives NaN or at least 0; a value that is NaN or at
least 0, divided by one that is NaN or at least 1, gives NaN or at least 0. An infinity
counts as at least 0 and at least 1. -/
structure IEEE (F : FloatOps) : Prop where
  mul_self : ∀ x, F.mul x x = VPFloat.nan ∨ VPFloat.le (VPFloat.fin 0) (F.mul x x) = true
  mul_neg_one : F.mul (VPFloat.fin (-1)) (VPFloat.fin (-1)) = VPFloat.fin 1
  add_one : ∀ u, (u = VPFloat.nan ∨ VPFloat.le (VPFloat.fin 0) u = true) →
    (F.add u (VPFloat.fin 1) = VPFloat.nan ∨
      VPFloat.le (VPFloat.fin 1) (F.add u (VPFloat.fin 1)) = true)
  sqrt_ge_one : ∀ v, (v = VPFloat.nan ∨ VPFloat.le (VPFloat.fin 1) v = true) →
    (F.sqrt v = VPFloat.nan ∨ VPFloat.le (VPFloat.fin 1) (F.sqrt v) = true)
  fabs_nonneg : ∀ v, F.fabs v = VPFloat.nan ∨ VPFloat.le (VPFloat.fin 0) (F.fabs v) = true
  div_nonneg : ∀ n d, (n = VPFloat.nan ∨ VPFloat.le (VPFloat.fin 0) n = true) →
    (d = VPFloat.nan ∨ VPFloat.le (VPFloat.fin 1) d = true) →
    (F.div n d = VPFloat.nan ∨ VPFloat.le (VPFloat.fin 0) (F.div n d) = true)

/-- `Line2DModel::ComputeDistanceMeasure` in the arithmetic `F`:
`fabs(m_a * x + m_b * y + m_c) / m_DistDenominator`; throws when the parameter is no
`Point2D`. -/
def ComputeDistanceMeasure (F : FloatOps) (self : Line2DModel) (Param : AbstractParameter) :
    Except Exn VPFloat :=
  match Param.asPoint2D with
  | none => .error .distanceTypeMismatch
  | some ExtPoint2D =>
    let Numer := F.fabs
      (F.add (F.add (F.mul self.m_a ExtPoint2D.x) (F.mul self.m_b ExtPoint2D.y)) self.m_c)
    let Dist := F.div Numer self.m_DistDenominator
    .ok Dist

/-- `Line2DModel::Initialize` in the arithmetic `F`. -/
def Initialize (F : FloatOps) (InputParams : List AbstractParameter) :
    Except Exn Line2DModel :=
  match InputParams with
  | [p0, p1] =>
    match p0.asPoint2D, p1.asPoint2D with
    | some Point1, some Point2 =>
      let m_m := F.div (F.sub Point2.y Point1.y) (F.sub Point2.x Point1.x)
      let m_d := F.sub Point1.y (F.mul m_m Point1.x)
      let m_a := m_m
      let m_b := VPFloat.fin (-1)
      let m_c := m_d
      .ok { m_MinModelParams := InputParams
            m_a := m_a
            m_b := m_b
            m_c := m_c
            m_DistDenominator := F.sqrt (F.add (F.mul m_a m_a) (F.mul m_b m_b))
            m_m := m_m
            m_d := m_d }
    | _, _ => .error .inputTypeMismatch
  | _ => .error .sampleSizeMismatch

/-- The arithmetic of `VPFloat` as defined above, finite results exact. -/
def rational (sqrtFin : ℚ → ℚ) : FloatOps :=
  { add := VPFloat.add
    sub := VPFloat.sub
    mul := VPFloat.mul
    div := VPFloat.div
    fabs := VPFloat.fabs
    sqrt := VPFloat.sqrt sqrtFin }

end FloatOps

/-- Overflow: a finite result beyond the largest finite value `B` becomes an infinity. -/
def VPFloat.overflow (B : ℚ) : VPFloat → VPFloat
  | .fin q => if B < q then .pinf else if q < -B then .ninf else .fin q
  | .pinf => .pinf
  | .ninf => .ninf
  | .nan => .nan

/-- An arithmetic with the finite range `[-B, B]`: the results of `+`, `-`, `*` and `/`
overflow to an infinity beyond it, as those of binary64 do. -/
def FloatOps.withRange (B : ℚ) (sqrtFin : ℚ → ℚ) : FloatOps :=
  { add := fun a b => VPFloat.overflow B (VPFloat.add a b)
    sub := fun a b => VPFloat.overflow B (VPFloat.sub a b)
    mul := fun a b => VPFloat.overflow B (VPFloat.mul a b)
    div := fun a b => VPFloat.overflow B (VPFloat.div a b)
    fabs := VPFloat.fabs
    sqrt := VPFloat.sqrt sqrtFin }

/-- The largest finite binary64 value, `(2 - 2^(-52)) * 2^1023`. -/
def binary64Max : ℚ := ((2 ^ 1024 - 2 ^ 971 : ℕ) : ℚ)

/-- What `RANSAC<T, t_NumParams>` uses of its template parameter `T`: the constructor from
a vector of parameters and the member function `Evaluate`. -/
structure ModelClass (M : Type) where
  construct : List AbstractParameter → Except Exn M
  Evaluate : M → List AbstractParameter → VPFloat →
    Except Exn (VPFloat × List AbstractParameter)

/-- The call `std::shuffle(first, last, m_RandEngines[omp_get_thread_num()])` of trial `i`.
The random engines (`std::mt19937`), `std::shuffle` and the OpenMP schedule are not part of
the repository: `E` is the state of the whole engine pool, `shuffle i e l` is the
rearranged vector together with the pool after the call, and `perm` is the contract of
`std::shuffle`, which only reorders the range. -/
structure Shuffler (E : Type) where
  shuffle : Nat → E → List AbstractParameter → List AbstractParameter × E
  perm : ∀ (i : Nat) (e : E) (l : List AbstractParameter), List.Perm (shuffle i e l).1 l

/-- The member variables of `class RANSAC`. -/
structure RANSAC (M E : Type) where
  m_Data : List AbstractParameter
  m_SampledModels : List M
  /-- `std::shared_ptr<T>`, `none` is the null pointer -/
  m_BestModel : Option M
  m_BestInliers : List AbstractParameter
  m_MaxIterations : Int
  m_Threshold : VPFloat
  m_BestModelScore : VPFloat
  m_BestModelIdx : Int
  m_RandEngines : E
  deriving DecidableEq

/-- What one iteration of the parallel loop stores at index `i`: `InlierFractionAccum[i]`,
`InliersAccum[i]` and `m_SampledModels[i]`. -/
structure TrialResult (M : Type) where
  InlierFraction : VPFloat
  Inliers : List AbstractParameter
  Model : M
  deriving DecidableEq

namespace RANSAC

variable {M E : Type}

/-- `RANSAC::Reset` -/
def Reset (self : RANSAC M E) : RANSAC M E :=
  { self with
    m_Data := []
    m_SampledModels := []
    m_BestModelIdx := -1
    m_BestModelScore := VPFloat.fin 0 }

/-- The constructor `RANSAC(void)`: it fills the engine pool (`engines`, seeded from
`std::random_device`) and calls `Reset`. It writes neither `m_Threshold` nor
`m_MaxIterations`; `thr0` and `it0` are the indeterminate values they hold. -/
def new (engines : E) (thr0 : VPFloat) (it0 : Int) : RANSAC M E :=
  Reset
    { m_Data := []
      m_SampledModels := []
      m_BestModel := none
      m_BestInliers := []
      m_MaxIterations := it0
      m_Threshold := thr0
      m_BestModelScore := VPFloat.fin 0
      m_BestModelIdx := -1
      m_RandEngines := engines }

/-- `RANSAC::Initialize` -/
def Initialize (self : RANSAC M E) (Threshold : VPFloat) (MaxIterations : Int := 1000) :
    RANSAC M E :=
  { self with m_Threshold := Threshold, m_MaxIterations := MaxIterations }

/-- `RANSAC::GetBestModel` -/
def GetBestModel (self : RANSAC M E) : Option M := self.m_BestModel

/-- `RANSAC::GetBestInliers` -/
def GetBestInliers (self : RANSAC M E) : List AbstractParameter := self.m_BestInliers

/-- `RandomSamples` of trial `i`: the first `t_NumParams` elements of the shuffled copy of
`m_Data`. -/
def RandomSamples (S : Shuffler E) (t_NumParams : Nat) (m_Data : List AbstractParameter)
    (i : Nat) (e : E) : List AbstractParameter :=
  (S.shuffle i e m_Data).1.take t_NumParams

/-- `RemainderSamples` of trial `i` after the `erase`: the shuffled copy of `m_Data`
without its first `t_NumParams` elements. -/
def RemainderSamples (S : Shuffler E) (t_NumParams : Nat) (m_Data : List AbstractParameter)
    (i : Nat) (e : E) : List AbstractParameter :=
  (S.shuffle i e m_Data).1.drop t_NumParams

/-- The body of the parallel loop for index `i`, from the engine pool `e`: what it stores
at index `i` and the pool afterwards, or the exception it raises. -/
def trial (T : ModelClass M) (S : Shuffler E) (t_NumParams : Nat) (m_Threshold : VPFloat)
    (m_Data : List AbstractParameter) (i : Nat) (e : E) :
    Except Exn (TrialResult M × E) :=
  match T.construct (RandomSamples S t_NumParams m_Data i e) with
  | .error x => .error x
  | .ok RandomModel =>
    match T.Evaluate RandomModel (RemainderSamples S t_NumParams m_Data i e) m_Threshold with
    | .error x => .error x
    | .ok EvalPair =>
      .ok ({ InlierFraction := EvalPair.1, Inliers := EvalPair.2, Model := RandomModel },
           (S.shuffle i e m_Data).2)

/-- The parallel loop `for(int i = 0; i < m_MaxIterations; ++i)`, as the `n` iterations
from index `i` on. An iteration touches its own slots and the engine of its thread only,
so the iterations are run in index order. -/
def trials (T : ModelClass M) (S : Shuffler E) (t_NumParams : Nat) (m_Threshold : VPFloat)
    (m_Data : List AbstractParameter) : Nat → Nat → E →
      Except Exn (List (TrialResult M) × E)
  | 0, _, e => .ok ([], e)
  | n + 1, i, e =>
    match trial T S t_NumParams m_Threshold m_Data i e with
    | .error x => .error x
    | .ok (r, e1) =>
      match trials T S t_NumParams m_Threshold m_Data n (i + 1) e1 with
      | .error x => .error x
      | .ok (rs, e2) => .ok (r :: rs, e2)

/-- The parallel loop of a call `Estimate(Data)`: the slots it fills (`InlierFractionAccum`,
`InliersAccum`, `m_SampledModels`, index by index) and the engine pool afterwards, or the
exception of the first iteration that throws. -/
def trialsOf (T : ModelClass M) (S : Shuffler E) (t_NumParams : Nat)
    (self : RANSAC M E) (Data : List AbstractParameter) :
    Except Exn (List (TrialResult M) × E) :=
  trials T S t_NumParams self.m_Threshold Data self.m_MaxIterations.toNat 0
    self.m_RandEngines

/-- The second loop of `Estimate` over the slots still to visit; `size` is
`m_SampledModels.size()`. -/
def reduction (size : Nat) : List (TrialResult M) → RANSAC M E → RANSAC M E
  | [], self => self
  | r :: rest, self =>
    if VPFloat.lt self.m_BestModelScore r.InlierFraction then
      reduction size rest
        { self with
          m_BestModelScore := r.InlierFraction
          m_BestModelIdx := (size : Int) - 1
          m_BestModel := some r.Model
          m_BestInliers := r.Inliers }
    else
      reduction size rest self

/-- `RANSAC::Estimate`: the returned `bool` and the estimator afterwards, or the
exception that leaves the call. The guard on the size of `Data` comes first; the
constructor of `InlierFractionAccum` throws for a negative `m_MaxIterations`; then the
parallel loop, the second loop and `Reset`. -/
def Estimate (T : ModelClass M) (S : Shuffler E) (t_NumParams : Nat) (self : RANSAC M E)
    (Data : List AbstractParameter) : Except Exn (Bool × RANSAC M E) :=
  if Data.length ≤ t_NumParams then
    .ok (false, self)
  else if self.m_MaxIterations < 0 then
    .error .lengthError
  else
    match trialsOf T S t_NumParams self Data with
    | .error x => .error x
    | .ok (results, e) =>
      let self1 : RANSAC M E :=
        { self with
          m_Data := Data
          m_SampledModels := results.map (fun r => r.Model)
          m_RandEngines := e }
      .ok (true, Reset (reduction results.length results self1))

end RANSAC

/-- `Line2DModel` as a template argument of `RANSAC`. -/
def Line2DClass (sqrtFin : ℚ → ℚ) : ModelClass Line2DModel :=
  { construct := Line2DModel.Initialize sqrtFin
    Evaluate := Line2DModel.Evaluate }

end GRANSAC

/-- The test of the `if` in `Line2DModel::Evaluate`, `ComputeDistanceMeasure(Param) <
Threshold`, for a parameter on which the distance is defined. -/
def Line2DModel.isInlier (self : Line2DModel) (Threshold : VPFloat)
    (Param : AbstractParameter) : Bool :=
  match self.ComputeDistanceMeasure Param with
  | .ok d => VPFloat.lt d Threshold
  | .error _ => false

/-! ## Concrete instances, used to run the definitions on examples -/

namespace GRANSAC

/-- Floor of the square root of `n`, one binary digit per step; `fuel` bounds the number
of digits. -/
def isqrtAux : Nat → Nat → Nat
  | 0, _ => 0
  | fuel + 1, n =>
    if n = 0 then 0
    else
      let r := 2 * isqrtAux fuel (n / 4)
      if (r + 1) * (r + 1) ≤ n then r + 1 else r

/-- Floor of the square root of `n`. -/
def isqrt (n : Nat) : Nat := isqrtAux n n

/-- A square root on the non-negative rationals, rounded down to six decimals of the
denominator: an instance for the parameter `sqrtFin`. -/
def sqrtQ (q : ℚ) : ℚ := (isqrt (q.num.toNat * q.den * 10 ^ 12) : ℚ) / (q.den * 10 ^ 6)

/-- An instance of `Shuffler`: the pool state is a counter, trial `i` rotates the vector
by counter plus `i` places and advances the counter. -/
def rotShuffler : Shuffler Nat :=
  { shuffle := fun i e l => (l.rotate (e + i), e + 1)
    perm := fun i e l => List.rotate_perm l (e + i) }

/-- The observation `std::make_shared<Point2D>(x, y)`. -/
def pt (x y : ℚ) : AbstractParameter := .point2D { x := .fin x, y := .fin y }

/-- The line y = 0, as `Line2DModel::Initialize` fits it from (0,0) and (1,0). -/
def lineY0 : Line2DModel :=
  { m_MinModelParams := [pt 0 0, pt 1 0]
    m_a := .fin 0
    m_b := .fin (-1)
    m_c := .fin 0
    m_DistDenominator := .fin 1
    m_m := .fin 0
    m_d := .fin 0 }

/-- The line y = 0 again, as `Line2DModel::Initialize` fits it from (2,0) and (3,0). -/
def lineY0b : Line2DModel := { lineY0 with m_MinModelParams := [pt 2 0, pt 3 0] }

/-- Four points of the line y = 0. -/
def onLineY0 : List AbstractParameter := [pt 0 0, pt 1 0, pt 2 0, pt 3 0]

/-- Three points, no two of which give a line that comes within 1/2 of the third. -/
def spread3 : List AbstractParameter := [pt 0 0, pt 10 0, pt 0 10]

/-- A freshly constructed `RANSAC<Line2DModel, 2>` after `Initialize(0.5, 2)`. -/
def freshLine : RANSAC Line2DModel Nat :=
  (RANSAC.new 0 (.fin 0) 0).Initialize (.fin (1 / 2)) 2

/-- The estimator `freshLine` after `Estimate` on `onLineY0` returned `true`. -/
def afterOnLineY0 : RANSAC Line2DModel Nat :=
  { freshLine with
    m_BestModel := some lineY0
    m_BestInliers := [pt 2 0, pt 3 0]
    m_RandEngines := 2 }

/-- Six points, three on the line y = 0 and three on the line y = 5. -/
def twoLines : List AbstractParameter := [pt 0 0, pt 1 0, pt 2 0, pt 0 5, pt 1 5, pt 2 5]

/-- The line y = 5, as `Line2DModel::Initialize` fits it from (1,5) and (2,5). -/
def lineY5 : Line2DModel :=
  { m_MinModelParams := [pt 1 5, pt 2 5]
    m_a := .fin 0
    m_b := .fin (-1)
    m_c := .fin 5
    m_DistDenominator := .fin 1
    m_m := .fin 0
    m_d := .fin 5 }

/-- The estimator `freshLine` after a first `Estimate` on `twoLines`. -/
def afterTwoLines1 : RANSAC Line2DModel Nat :=
  { freshLine with
    m_BestModel := some lineY0
    m_BestInliers := [pt 2 0]
    m_RandEngines := 2 }

/-- The estimator `freshLine` after a second `Estimate` on `twoLines`. -/
def afterTwoLines2 : RANSAC Line2DModel Nat :=
  { freshLine with
    m_BestModel := some lineY5
    m_BestInliers := [pt 0 5]
    m_RandEngines := 4 }

/-- What `Line2DModel::Initialize` leaves for the sample (1,1), (1,1). -/
def coincidentModel : Line2DModel :=
  { m_MinModelParams := [pt 1 1, pt 1 1]
    m_a := .nan
    m_b := .fin (-1)
    m_c := .nan
    m_DistDenominator := .nan
    m_m := .nan
    m_d := .nan }

/-- What `Line2DModel::Initialize` leaves in binary64 for the sample (0, -2^1023),
(1, 2^1023): the difference of the y overflows to +infinity. -/
def overflowModel : Line2DModel :=
  { m_MinModelParams := [pt 0 (-((2 ^ 1023 : ℕ) : ℚ)), pt 1 ((2 ^ 1023 : ℕ) : ℚ)]
    m_a := .pinf
    m_b := .fin (-1)
    m_c := .nan
    m_DistDenominator := .pinf
    m_m := .pinf
    m_d := .nan }

/-- The line y = 2x + 1, as `Line2DModel::Initialize` with `sqrtQ` fits it from (0,1) and
(2,5). -/
def lineY2X1 : Line2DModel :=
  { m_MinModelParams := [pt 0 1, pt 2 5]
    m_a := .fin 2
    m_b := .fin (-1)
    m_c := .fin 1
    m_DistDenominator := .fin (2236067 / 1000000)
    m_m := .fin 2
    m_d := .fin 1 }

namespace RANSAC

variable {M E : Type}

/-- The transient members as `Reset` leaves them: no data copy, no sampled models, the
running score 0 and the best index -1. -/
def TransientReset (self : RANSAC M E) : Prop :=
  self.m_Data = [] ∧ self.m_SampledModels = [] ∧
  self.m_BestModelScore = VPFloat.fin 0 ∧ self.m_BestModelIdx = -1

/-- The estimators a caller can hold: the constructed one, and what a call of a public
member function leaves of one, also when `Estimate` is left by an exception.
* `Estimate` with more data than `t_NumParams` and a negative `m_MaxIterations` has run
  `m_Data = Data` when the constructor of `InlierFractionAccum` throws; nothing else is
  written and `Reset` is not reached.
* An exception of an iteration leaves the OpenMP region, which ends the process. Should
  it reach the caller instead, the estimator holds the copy of the data, and the model
  buffer and the engines in the state the iterations left them in: every content of
  these two is admitted. -/
inductive Reachable (T : ModelClass M) (S : Shuffler E) (t_NumParams : Nat) :
    RANSAC M E → Prop where
  | constructed (engines : E) (thr0 : VPFloat) (it0 : Int) :
    Reachable T S t_NumParams (new engines thr0 it0)
  | afterReset (self : RANSAC M E) :
    Reachable T S t_NumParams self → Reachable T S t_NumParams (Reset self)
  | afterInitialize (self : RANSAC M E) (Threshold : VPFloat) (MaxIterations : Int) :
    Reachable T S t_NumParams self →
    Reachable T S t_NumParams (self.Initialize Threshold MaxIterations)
  | afterEstimate (self s1 : RANSAC M E) (Data : List AbstractParameter) (b : Bool) :
    Reachable T S t_NumParams self →
    Estimate T S t_NumParams self Data = .ok (b, s1) →
    Reachable T S t_NumParams s1
  | afterLengthError (self : RANSAC M E) (Data : List AbstractParameter) :
    Reachable T S t_NumParams self →
    t_NumParams < Data.length → self.m_MaxIterations < 0 →
    Reachable T S t_NumParams { self with m_Data := Data }
  | afterThrowingIteration (self : RANSAC M E) (Data : List AbstractParameter) (x : Exn)
      (models : List M) (e : E) :
    Reachable T S t_NumParams self →
    t_NumParams < Data.length → 0 ≤ self.m_MaxIterations →
    trialsOf T S t_NumParams self Data = .error x →
    Reachable T S t_NumParams
      { self with m_Data := Data, m_SampledModels := models, m_RandEngines := e }

end RANSAC

end GRANSAC

/-! ## Auxiliary facts on `VPFloat` -/

namespace GRANSAC.VPFloat

theorem vlt_irrefl (a : VPFloat) : lt a a = false := by
  cases a <;> simp [lt]

theorem vlt_not_nan {a b : VPFloat} (h : lt a b = true) : a ≠ nan ∧ b ≠ nan := by
  cases a <;> cases b <;> simp [lt] at h ⊢

theorem vlt_trans {a b c : VPFloat} (hab : lt a b = true) (hbc : lt b c = true) :
    lt a c = true := by
  cases a <;> cases b <;> cases c <;> simp [lt] at hab hbc ⊢
  exact lt_trans hab hbc

theorem vlt_total {a b : VPFloat} (ha : a ≠ nan) (hb : b ≠ nan) :
    lt a b = true ∨ a = b ∨ lt b a = true := by
  cases a <;> cases b <;> simp [lt] at ha hb ⊢
  exact lt_trichotomy _ _

theorem vle_of_not_vlt {a b : VPFloat} (ha : a ≠ nan) (hb : b ≠ nan)
    (h : lt a b = false) : le b a = true := by
  cases a <;> cases b <;> simp [lt, le] at ha hb h ⊢
  exact h

theorem div_ofNat (a b : Nat) (hb : b ≠ 0) :
    div (ofNat a) (ofNat b) = fin ((a : ℚ) / (b : ℚ)) := by
  simp [div, ofNat, hb]

theorem div_ofNat_zero : div (ofNat 0) (ofNat 0) = nan := by
  simp [div, ofNat]

end GRANSAC.VPFloat

/-! ## `Line2DModel::Evaluate` -/

namespace Line2DModel

theorem evaluateLoop_points (self : Line2DModel) (thr : VPFloat) :
    ∀ (batch Inliers : List AbstractParameter) (n : Nat),
      (∀ p ∈ batch, ∃ q, p = AbstractParameter.point2D q) →
      evaluateLoop self thr batch Inliers n =
        .ok (Inliers ++ batch.filter (self.isInlier thr),
             n + (batch.filter (self.isInlier thr)).length) := by
  intro batch
  induction batch with
  | nil => intro Inliers n _; simp [evaluateLoop]
  | cons p rest ih =>
    intro Inliers n h
    obtain ⟨q, rfl⟩ := h p (List.mem_cons_self _ _)
    have hrest : ∀ r ∈ rest, ∃ q, r = AbstractParameter.point2D q :=
      fun r hr => h r (List.mem_cons_of_mem _ hr)
    by_cases hlt : self.isInlier thr (.point2D q) = true
    · have hlt2 := hlt
      simp only [isInlier, ComputeDistanceMeasure, AbstractParameter.asPoint2D] at hlt2
      simp only [evaluateLoop, ComputeDistanceMeasure, AbstractParameter.asPoint2D, hlt2,
        if_true]
      rw [ih _ _ hrest, List.filter_cons_of_pos hlt]
      simp only [List.append_assoc, List.singleton_append, List.length_cons]
      congr 2
      omega
    · have hlt2 := hlt
      simp only [isInlier, ComputeDistanceMeasure, AbstractParameter.asPoint2D] at hlt2
      simp only [evaluateLoop, ComputeDistanceMeasure, AbstractParameter.asPoint2D, hlt2]
      rw [List.filter_cons_of_neg hlt]
      exact ih _ _ hrest

theorem evaluateLoop_notPoint (self : Line2DModel) (thr : VPFloat) :
    ∀ (batch Inliers : List AbstractParameter) (n : Nat),
      (∃ p ∈ batch, p.asPoint2D = none) →
      evaluateLoop self thr batch Inliers n = .error .distanceTypeMismatch := by
  intro batch
  induction batch with
  | nil => intro _ _ h; simp at h
  | cons p rest ih =>
    intro Inliers n h
    cases p with
    | notPoint2D id => simp [evaluateLoop, ComputeDistanceMeasure, AbstractParameter.asPoint2D]
    | point2D q =>
      have hrest : ∃ p ∈ rest, p.asPoint2D = none := by
        obtain ⟨p, hp, hpn⟩ := h
        rcases List.mem_cons.mp hp with rfl | hp
        · simp [AbstractParameter.asPoint2D] at hpn
        · exact ⟨p, hp, hpn⟩
      simp only [evaluateLoop, ComputeDistanceMeasure, AbstractParameter.asPoint2D]
      split <;> exact ih _ _ hrest

theorem Evaluate_points (self : Line2DModel) (thr : VPFloat) (batch : List AbstractParameter)
    (h : ∀ p ∈ batch, ∃ q, p = AbstractParameter.point2D q) :
    Evaluate self batch thr =
      .ok (VPFloat.div (VPFloat.ofNat (batch.filter (self.isInlier thr)).length)
             (VPFloat.ofNat batch.length),
           batch.filter (self.isInlier thr)) := by
  simp [Evaluate, evaluateLoop_points self thr batch [] 0 h]

theorem Evaluate_notPoint (self : Line2DModel) (thr : VPFloat)
    (batch : List AbstractParameter) (h : ∃ p ∈ batch, p.asPoint2D = none) :
    Evaluate self batch thr = .error .distanceTypeMismatch := by
  simp [Evaluate, evaluateLoop_notPoint self thr batch [] 0 h]

end Line2DModel

/-! ## The concrete square root -/

namespace GRANSAC

theorem isqrtAux_spec : ∀ (fuel n : Nat), n < 4 ^ fuel →
    isqrtAux fuel n * isqrtAux fuel n ≤ n ∧
    n < (isqrtAux fuel n + 1) * (isqrtAux fuel n + 1) := by
  intro fuel
  induction fuel with
  | zero =>
    intro n hn
    simp only [pow_zero, Nat.lt_one_iff] at hn
    subst hn
    simp [isqrtAux]
  | succ fuel ih =>
    intro n hn
    by_cases h0 : n = 0
    · subst h0
      simp [isqrtAux]
    · have hdiv : n / 4 < 4 ^ fuel := by
        rw [pow_succ] at hn
        omega
      obtain ⟨hlo, hhi⟩ := ih (n / 4) hdiv
      have hmod := Nat.div_add_mod n 4
      have hlt := Nat.mod_lt n (show 4 > 0 by decide)
      simp only [isqrtAux, h0, if_false]
      generalize isqrtAux fuel (n / 4) = q at hlo hhi
      have e1 : (2 * q) * (2 * q) = 4 * (q * q) := by ring
      have e2 : (2 * q + 1 + 1) * (2 * q + 1 + 1) = 4 * ((q + 1) * (q + 1)) := by ring
      split
      · rename_i hle
        exact ⟨hle, by rw [e2]; omega⟩
      · rename_i hle
        exact ⟨by rw [e1]; omega, by omega⟩

theorem isqrt_eq_sqrt (n : Nat) : isqrt n = Nat.sqrt n := by
  obtain ⟨hlo, hhi⟩ := isqrtAux_spec n n (Nat.lt_pow_self (by decide) n)
  exact Nat.eq_sqrt.mpr ⟨hlo, hhi⟩

theorem sqrtQ_nonneg (q : ℚ) : 0 ≤ sqrtQ q := by
  unfold sqrtQ
  positivity

/-- On arguments from 1 on the concrete square root is at least 1. -/
theorem one_le_sqrtQ (q : ℚ) (hq : 1 ≤ q) : 1 ≤ sqrtQ q := by
  unfold sqrtQ
  have hden : (0 : ℚ) < (q.den : ℚ) := by exact_mod_cast q.den_pos
  have hnum : (q.den : ℤ) ≤ q.num := by
    have := (Rat.le_iff_sub_nonneg 1 q).mp hq
    have h1 : (1 : ℚ) ≤ (q.num : ℚ) / (q.den : ℚ) := by rwa [Rat.num_div_den]
    rw [le_div_iff₀ hden, one_mul] at h1
    exact_mod_cast h1
  have hnat : q.den ≤ q.num.toNat := by omega
  have hsq : (q.den * 10 ^ 6) * (q.den * 10 ^ 6) ≤ q.num.toNat * q.den * 10 ^ 12 := by
    have : q.den * q.den ≤ q.num.toNat * q.den := Nat.mul_le_mul_right _ hnat
    calc (q.den * 10 ^ 6) * (q.den * 10 ^ 6) = (q.den * q.den) * 10 ^ 12 := by ring
      _ ≤ q.num.toNat * q.den * 10 ^ 12 := Nat.mul_le_mul_right _ this
  have hle : q.den * 10 ^ 6 ≤ isqrt (q.num.toNat * q.den * 10 ^ 12) := by
    rw [isqrt_eq_sqrt]
    exact Nat.le_sqrt.mpr hsq
  rw [le_div_iff₀ (by positivity), one_mul]
  exact_mod_cast hle

end GRANSAC

namespace GRANSAC.VPFloat

theorem vlt_false_of_vle {a b : VPFloat} (h : le a b = true) : lt b a = false := by
  cases a <;> cases b <;> simp [lt, le] at h ⊢
  exact h

end GRANSAC.VPFloat

namespace Line2DModel

theorem isInlier_iff (self : Line2DModel) (thr : VPFloat) (p : AbstractParameter) :
    self.isInlier thr p = true ↔
      ∃ d, self.ComputeDistanceMeasure p = .ok d ∧ VPFloat.lt d thr = true := by
  unfold isInlier
  cases h : self.ComputeDistanceMeasure p with
  | error e => simp
  | ok d => simp

/-- C6: for every `Line2DModel`, every batch of `Point2D` observations and every
threshold, `Evaluate` returns, and its inlier list is the batch filtered by the test
`ComputeDistanceMeasure(Param) < Threshold`, in the order of the batch. It is a
sub-sequence of the batch; an observation is in it exactly when it is in the batch at a
distance strictly below the threshold; an observation at a distance equal to or above the
threshold (or at a distance that is not below it, such as NaN) is left out. -/
theorem Evaluate_inliers_are_the_filtered_batch (self : Line2DModel)
    (batch : List AbstractParameter) (Threshold : VPFloat)
    (hbatch : ∀ p ∈ batch, ∃ q, p = AbstractParameter.point2D q) :
    ∃ fraction inliers, self.Evaluate batch Threshold = .ok (fraction, inliers) ∧
      inliers = batch.filter (self.isInlier Threshold) ∧
      inliers.Sublist batch ∧
      (∀ p, p ∈ inliers ↔
        p ∈ batch ∧ ∃ d, self.ComputeDistanceMeasure p = .ok d ∧
          VPFloat.lt d Threshold = true) ∧
      (∀ p d, self.ComputeDistanceMeasure p = .ok d →
        (VPFloat.le Threshold d = true ∨ VPFloat.lt d Threshold = false) → p ∉ inliers) := by
  refine ⟨_, _, Evaluate_points self Threshold batch hbatch, rfl, List.filter_sublist _, ?_, ?_⟩
  · intro p
    rw [List.mem_filter, isInlier_iff]
  · intro p d hd hge hmem
    rw [List.mem_filter, isInlier_iff] at hmem
    obtain ⟨-, d1, hd1, hlt⟩ := hmem
    rw [hd] at hd1
    cases hd1
    rcases hge with hge | hge
    · rw [VPFloat.vlt_false_of_vle hge] at hlt
      exact Bool.false_ne_true hlt
    · rw [hge] at hlt
      exact Bool.false_ne_true hlt

/-- C6, at the line y = 0, threshold 1/2 and the batch (2,0), (5,3), (7,1/2), (-1,1/4):
the inliers are (2,0) and (-1,1/4), in this order; (7,1/2), at distance equal to the
threshold, is left out. -/
theorem Evaluate_inliers_are_the_filtered_batch_witness :
    ∃ fraction inliers,
      lineY0.Evaluate [pt 2 0, pt 5 3, pt 7 (1 / 2), pt (-1) (1 / 4)] (.fin (1 / 2)) =
        .ok (fraction, inliers) ∧ inliers = [pt 2 0, pt (-1) (1 / 4)] := by
  obtain ⟨f, inl, h1, h2, -⟩ :=
    Evaluate_inliers_are_the_filtered_batch lineY0
      [pt 2 0, pt 5 3, pt 7 (1 / 2), pt (-1) (1 / 4)] (.fin (1 / 2))
      (by intro p hp; simp only [List.mem_cons, List.mem_singleton, List.not_mem_nil,
            or_false] at hp
          rcases hp with rfl | rfl | rfl | rfl <;> exact ⟨_, rfl⟩)
  exact ⟨f, inl, h1, h2.trans (by decide!)⟩

/-- C7, as the code has it: for every batch of `Point2D` observations and every
threshold, `Evaluate` returns the fraction `VPFloat(nInliers) / VPFloat(nTotalParams)`
with `nInliers` the length of the inlier list and `nTotalParams` the length of the batch,
and the inlier list is not longer than the batch. For a batch that is not empty the
fraction is the finite value |inliers| / |batch| and lies in [0,1]. For the empty batch
the inlier list is empty and the fraction is 0/0, which is NaN. -/
theorem Evaluate_fraction (self : Line2DModel) (batch : List AbstractParameter)
    (Threshold : VPFloat) (hbatch : ∀ p ∈ batch, ∃ q, p = AbstractParameter.point2D q) :
    ∃ fraction inliers, self.Evaluate batch Threshold = .ok (fraction, inliers) ∧
      fraction = VPFloat.div (VPFloat.ofNat inliers.length) (VPFloat.ofNat batch.length) ∧
      inliers.length ≤ batch.length ∧
      (batch ≠ [] →
        fraction = VPFloat.fin ((inliers.length : ℚ) / (batch.length : ℚ)) ∧
        (0 : ℚ) ≤ (inliers.length : ℚ) / (batch.length : ℚ) ∧
        (inliers.length : ℚ) / (batch.length : ℚ) ≤ 1) ∧
      (batch = [] → inliers = [] ∧ fraction = VPFloat.nan) := by
  have hlen : (batch.filter (self.isInlier Threshold)).length ≤ batch.length :=
    List.length_filter_le _ _
  refine ⟨_, _, Evaluate_points self Threshold batch hbatch, rfl, hlen, ?_, ?_⟩
  · intro hne
    have hpos : 0 < batch.length := List.length_pos.mpr hne
    have hposQ : (0 : ℚ) < (batch.length : ℚ) := by exact_mod_cast hpos
    refine ⟨VPFloat.div_ofNat _ _ (Nat.pos_iff_ne_zero.mp hpos), by positivity, ?_⟩
    rw [div_le_one hposQ]
    exact_mod_cast hlen
  · rintro rfl
    exact ⟨rfl, VPFloat.div_ofNat_zero⟩

/-- C7, at the line y = 0, threshold 1/2 and the batch (2,0), (5,3), (7,1/2), (-1,1/4):
the fraction is 2/4. -/
theorem Evaluate_fraction_witness :
    ∃ fraction inliers,
      lineY0.Evaluate [pt 2 0, pt 5 3, pt 7 (1 / 2), pt (-1) (1 / 4)] (.fin (1 / 2)) =
        .ok (fraction, inliers) ∧
      fraction = VPFloat.fin (((inliers.length : ℕ) : ℚ) / (4 : ℕ)) ∧
      fraction = VPFloat.fin (1 / 2) := by
  obtain ⟨f, inl, h1, -, -, h4, -⟩ :=
    Evaluate_fraction lineY0
      [pt 2 0, pt 5 3, pt 7 (1 / 2), pt (-1) (1 / 4)] (.fin (1 / 2))
      (by intro p hp; simp only [List.mem_cons, List.mem_singleton, List.not_mem_nil,
            or_false] at hp
          rcases hp with rfl | rfl | rfl | rfl <;> exact ⟨_, rfl⟩)
  have h3 : lineY0.Evaluate [pt 2 0, pt 5 3, pt 7 (1 / 2), pt (-1) (1 / 4)] (.fin (1 / 2)) =
      .ok (.fin (1 / 2), [pt 2 0, pt (-1) (1 / 4)]) := by decide!
  have h5 := (h4 (by simp)).1
  rw [h3] at h1
  cases h1
  exact ⟨_, _, h3, h5, rfl⟩

/-- C7 fails at the empty batch: the model fitted from (0,0) and (1,0) is the line y = 0,
and its `Evaluate` on the empty batch returns the fraction NaN (0.0 / 0.0), not 0. -/
theorem Evaluate_empty_batch_fraction_is_nan :
    Line2DModel.Initialize sqrtQ [pt 0 0, pt 1 0] = .ok lineY0 ∧
    lineY0.Evaluate [] (.fin (1 / 2)) = .ok (.nan, []) ∧
    VPFloat.nan ≠ VPFloat.fin 0 := by
  decide!

end Line2DModel

/-! ## The loops of `RANSAC::Estimate` -/

namespace GRANSAC.RANSAC

variable {M E : Type}

theorem trials_ok (T : ModelClass M) (S : Shuffler E) (k : Nat) (thr : VPFloat)
    (Data : List AbstractParameter)
    (h : ∀ i e, ∃ r, trial T S k thr Data i e = .ok r) :
    ∀ n i e, ∃ r, trials T S k thr Data n i e = .ok r := by
  intro n
  induction n with
  | zero => intro i e; exact ⟨_, rfl⟩
  | succ n ih =>
    intro i e
    obtain ⟨⟨r, e1⟩, hr⟩ := h i e
    obtain ⟨⟨rs, e2⟩, hrs⟩ := ih (i + 1) e1
    exact ⟨(r :: rs, e2), by simp [trials, hr, hrs]⟩

theorem trials_length (T : ModelClass M) (S : Shuffler E) (k : Nat) (thr : VPFloat)
    (Data : List AbstractParameter) :
    ∀ n i e res e1, trials T S k thr Data n i e = .ok (res, e1) → res.length = n := by
  intro n
  induction n with
  | zero =>
    intro i e res e1 h
    simp only [trials, Except.ok.injEq, Prod.mk.injEq] at h
    rw [← h.1]; rfl
  | succ n ih =>
    intro i e res e1 h
    simp only [trials] at h
    cases ht : trial T S k thr Data i e with
    | error x => rw [ht] at h; cases h
    | ok p =>
      obtain ⟨r, e2⟩ := p
      rw [ht] at h
      simp only at h
      cases hrs : trials T S k thr Data n (i + 1) e2 with
      | error x => rw [hrs] at h; cases h
      | ok p2 =>
        obtain ⟨rs, e3⟩ := p2
        rw [hrs] at h
        simp only [Except.ok.injEq, Prod.mk.injEq] at h
        rw [← h.1, List.length_cons, ih _ _ _ _ hrs]

theorem trials_getElem (T : ModelClass M) (S : Shuffler E) (k : Nat) (thr : VPFloat)
    (Data : List AbstractParameter) :
    ∀ n i e res e1, trials T S k thr Data n i e = .ok (res, e1) →
      ∀ j r, res[j]? = some r → ∃ e2 e3, trial T S k thr Data (i + j) e2 = .ok (r, e3) := by
  intro n
  induction n with
  | zero =>
    intro i e res e1 h j r hj
    simp only [trials, Except.ok.injEq, Prod.mk.injEq] at h
    rw [← h.1] at hj
    simp at hj
  | succ n ih =>
    intro i e res e1 h j r hj
    simp only [trials] at h
    cases ht : trial T S k thr Data i e with
    | error x => rw [ht] at h; cases h
    | ok p =>
      obtain ⟨r0, e2⟩ := p
      rw [ht] at h
      simp only at h
      cases hrs : trials T S k thr Data n (i + 1) e2 with
      | error x => rw [hrs] at h; cases h
      | ok p2 =>
        obtain ⟨rs, e3⟩ := p2
        rw [hrs] at h
        simp only [Except.ok.injEq, Prod.mk.injEq] at h
        rw [← h.1] at hj
        cases j with
        | zero =>
          simp only [List.getElem?_cons_zero, Option.some.injEq] at hj
          exact ⟨e, e2, by rw [← hj]; exact ht⟩
        | succ j =>
          simp only [List.getElem?_cons_succ] at hj
          obtain ⟨e4, e5, h5⟩ := ih _ _ _ _ hrs j r hj
          exact ⟨e4, e5, by rw [show i + (j + 1) = i + 1 + j by omega]; exact h5⟩

theorem trials_error (T : ModelClass M) (S : Shuffler E) (k : Nat) (thr : VPFloat)
    (Data : List AbstractParameter) :
    ∀ n i e j, j < n → (∀ e2, ∃ x, trial T S k thr Data (i + j) e2 = .error x) →
      ∃ x, trials T S k thr Data n i e = .error x := by
  intro n
  induction n with
  | zero => intro i e j hj; omega
  | succ n ih =>
    intro i e j hj hfail
    simp only [trials]
    cases ht : trial T S k thr Data i e with
    | error x => exact ⟨x, rfl⟩
    | ok p =>
      obtain ⟨r0, e2⟩ := p
      cases j with
      | zero =>
        obtain ⟨x, hx⟩ := hfail e
        rw [Nat.add_zero, ht] at hx
        cases hx
      | succ j =>
        obtain ⟨x, hx⟩ := ih (i + 1) e2 j (by omega)
          (by intro e3; rw [show i + 1 + j = i + (j + 1) by omega]; exact hfail e3)
        exact ⟨x, by simp [hx]⟩

end GRANSAC.RANSAC

namespace GRANSAC.RANSAC

variable {M E : Type}

theorem reduction_append (size : Nat) (pre post : List (TrialResult M)) (s : RANSAC M E) :
    reduction size (pre ++ post) s = reduction size post (reduction size pre s) := by
  induction pre generalizing s with
  | nil => rfl
  | cons r rest ih =>
    simp only [List.cons_append, reduction]
    split <;> exact ih _

/-- The second loop writes the four best-result members only. -/
theorem reduction_frame (size : Nat) (res : List (TrialResult M)) (s : RANSAC M E) :
    (reduction size res s).m_Data = s.m_Data ∧
    (reduction size res s).m_SampledModels = s.m_SampledModels ∧
    (reduction size res s).m_MaxIterations = s.m_MaxIterations ∧
    (reduction size res s).m_Threshold = s.m_Threshold ∧
    (reduction size res s).m_RandEngines = s.m_RandEngines := by
  induction res generalizing s with
  | nil => exact ⟨rfl, rfl, rfl, rfl, rfl⟩
  | cons r rest ih =>
    simp only [reduction]
    split
    · exact ih _
    · exact ih _

/-- No slot beats the running score: the loop changes nothing. -/
theorem reduction_unchanged (size : Nat) (res : List (TrialResult M)) (s : RANSAC M E)
    (h : ∀ r ∈ res, VPFloat.lt s.m_BestModelScore r.InlierFraction = false) :
    reduction size res s = s := by
  induction res with
  | nil => rfl
  | cons r rest ih =>
    have hr := h r (List.mem_cons_self _ _)
    simp only [reduction, hr, Bool.false_eq_true, if_false]
    exact ih (fun x hx => h x (List.mem_cons_of_mem _ hx))

/-- Either the loop changed nothing, or the best result it leaves is that of a slot that
beat the score the loop started from. -/
theorem reduction_cases (size : Nat) (res : List (TrialResult M)) (s : RANSAC M E) :
    (reduction size res s = s ∧
        ∀ r ∈ res, VPFloat.lt s.m_BestModelScore r.InlierFraction = false) ∨
    (∃ r ∈ res, VPFloat.lt s.m_BestModelScore r.InlierFraction = true ∧
        (reduction size res s).m_BestModel = some r.Model ∧
        (reduction size res s).m_BestInliers = r.Inliers ∧
        (reduction size res s).m_BestModelScore = r.InlierFraction) := by
  induction res generalizing s with
  | nil => exact Or.inl ⟨rfl, by simp⟩
  | cons r rest ih =>
    by_cases hr : VPFloat.lt s.m_BestModelScore r.InlierFraction = true
    · right
      simp only [reduction, hr, if_true]
      rcases ih { s with
          m_BestModelScore := r.InlierFraction
          m_BestModelIdx := (size : Int) - 1
          m_BestModel := some r.Model
          m_BestInliers := r.Inliers } with ⟨heq, -⟩ | ⟨x, hx, hlt, h1, h2, h3⟩
      · exact ⟨r, List.mem_cons_self _ _, hr, by rw [heq], by rw [heq], by rw [heq]⟩
      · exact ⟨x, List.mem_cons_of_mem _ hx, VPFloat.vlt_trans hr hlt, h1, h2, h3⟩
    · have hr2 : VPFloat.lt s.m_BestModelScore r.InlierFraction = false := by
        simpa using hr
      simp only [reduction, hr2, Bool.false_eq_true, if_false]
      rcases ih s with ⟨heq, hall⟩ | ⟨x, hx, hlt, h1, h2, h3⟩
      · left
        refine ⟨heq, ?_⟩
        intro x hx
        rcases List.mem_cons.mp hx with rfl | hx
        · exact hr2
        · exact hall x hx
      · exact Or.inr ⟨x, List.mem_cons_of_mem _ hx, hlt, h1, h2, h3⟩

/-- A value that does not beat the running score does not beat the final score. -/
theorem reduction_score_mono (size : Nat) (res : List (TrialResult M)) (s : RANSAC M E)
    (x : VPFloat) (h : VPFloat.lt s.m_BestModelScore x = false) :
    VPFloat.lt (reduction size res s).m_BestModelScore x = false := by
  induction res generalizing s with
  | nil => exact h
  | cons r rest ih =>
    simp only [reduction]
    split
    · rename_i hr
      apply ih
      cases hx : VPFloat.lt r.InlierFraction x with
      | false => rfl
      | true =>
        rw [VPFloat.vlt_trans hr hx] at h
        cases h
    · exact ih _ h

/-- No slot beats the final score. -/
theorem reduction_score_max (size : Nat) (res : List (TrialResult M)) (s : RANSAC M E) :
    ∀ r ∈ res, VPFloat.lt (reduction size res s).m_BestModelScore r.InlierFraction = false := by
  induction res generalizing s with
  | nil => intro r hr; simp at hr
  | cons r rest ih =>
    intro x hx
    simp only [reduction]
    rcases List.mem_cons.mp hx with rfl | hx
    · split
      · exact reduction_score_mono _ _ _ _ (VPFloat.vlt_irrefl _)
      · rename_i hr
        exact reduction_score_mono _ _ _ _ (by simpa using hr)
    · split <;> exact ih _ x hx

/-- While every slot seen is different from `x` and not above it, the running score stays
strictly below `x`. -/
theorem reduction_below (size : Nat) (pre : List (TrialResult M)) (s : RANSAC M E)
    (x : VPFloat) (hs : VPFloat.lt s.m_BestModelScore x = true)
    (hpre : ∀ r ∈ pre, r.InlierFraction ≠ x ∧ VPFloat.lt x r.InlierFraction = false) :
    VPFloat.lt (reduction size pre s).m_BestModelScore x = true := by
  induction pre generalizing s with
  | nil => exact hs
  | cons r rest ih =>
    have hr := hpre r (List.mem_cons_self _ _)
    have hrest : ∀ y ∈ rest, y.InlierFraction ≠ x ∧ VPFloat.lt x y.InlierFraction = false :=
      fun y hy => hpre y (List.mem_cons_of_mem _ hy)
    simp only [reduction]
    split
    · rename_i hlt
      apply ih _ _ hrest
      rcases VPFloat.vlt_total (VPFloat.vlt_not_nan hlt).2 (VPFloat.vlt_not_nan hs).2 with
        h1 | h1 | h1
      · exact h1
      · exact absurd h1 hr.1
      · rw [hr.2] at h1; cases h1
    · exact ih _ hs hrest

/-- The slot that wins: strictly above the starting score, not reached by an earlier slot
and not exceeded by any slot. -/
theorem reduction_first_max (size : Nat) (pre post : List (TrialResult M))
    (r : TrialResult M) (s : RANSAC M E)
    (hs : VPFloat.lt s.m_BestModelScore r.InlierFraction = true)
    (hpre : ∀ y ∈ pre, y.InlierFraction ≠ r.InlierFraction ∧
      VPFloat.lt r.InlierFraction y.InlierFraction = false)
    (hpost : ∀ y ∈ post, VPFloat.lt r.InlierFraction y.InlierFraction = false) :
    (reduction size (pre ++ r :: post) s).m_BestModel = some r.Model ∧
    (reduction size (pre ++ r :: post) s).m_BestInliers = r.Inliers ∧
    (reduction size (pre ++ r :: post) s).m_BestModelScore = r.InlierFraction := by
  rw [reduction_append]
  have h1 := reduction_below size pre s r.InlierFraction hs hpre
  simp only [reduction, h1, if_true]
  rw [reduction_unchanged size post _ hpost]
  exact ⟨rfl, rfl, rfl⟩

/-- What a call of `Estimate` that returns `true` did. -/
theorem Estimate_true_inv (T : ModelClass M) (S : Shuffler E) (k : Nat)
    (self s1 : RANSAC M E) (Data : List AbstractParameter)
    (h : Estimate T S k self Data = .ok (true, s1)) :
    k < Data.length ∧ 0 ≤ self.m_MaxIterations ∧
    ∃ res e, trialsOf T S k self Data = .ok (res, e) ∧
      s1 = Reset (reduction res.length res
        { self with
          m_Data := Data
          m_SampledModels := res.map (fun r => r.Model)
          m_RandEngines := e }) := by
  unfold Estimate at h
  split at h
  · simp at h
  · rename_i hlen
    split at h
    · cases h
    · rename_i hit
      refine ⟨by omega, by omega, ?_⟩
      split at h
      · cases h
      · rename_i res e hres
        simp only [Except.ok.injEq, Prod.mk.injEq, true_and] at h
        exact ⟨res, e, hres, h.symm⟩

/-- `Reset` keeps the best model and the best inliers. -/
theorem Reset_best (s : RANSAC M E) :
    (Reset s).m_BestModel = s.m_BestModel ∧ (Reset s).m_BestInliers = s.m_BestInliers :=
  ⟨rfl, rfl⟩

end GRANSAC.RANSAC

/-! ## `RANSAC<Line2DModel, 2>` on `Point2D` observations -/

namespace GRANSAC

theorem Line2D_construct_ok (f : ℚ → ℚ) (sample : List AbstractParameter)
    (hlen : sample.length = 2) (hpts : ∀ p ∈ sample, ∃ q, p = AbstractParameter.point2D q) :
    ∃ m, (Line2DClass f).construct sample = .ok m := by
  match sample, hlen with
  | [a, b], _ =>
    obtain ⟨qa, rfl⟩ := hpts a (by simp)
    obtain ⟨qb, rfl⟩ := hpts b (by simp)
    exact ⟨_, rfl⟩

theorem Line2D_trial_ok {E : Type} (f : ℚ → ℚ) (S : Shuffler E) (thr : VPFloat)
    (Data : List AbstractParameter) (i : Nat) (e : E)
    (hpts : ∀ p ∈ Data, ∃ q, p = AbstractParameter.point2D q) (hlen : 2 < Data.length) :
    ∃ r, RANSAC.trial (Line2DClass f) S 2 thr Data i e = .ok r := by
  have hperm := S.perm i e Data
  have hmem : ∀ p ∈ (S.shuffle i e Data).1, ∃ q, p = AbstractParameter.point2D q :=
    fun p hp => hpts p (hperm.mem_iff.mp hp)
  have hl : ((S.shuffle i e Data).1.take 2).length = 2 := by
    rw [List.length_take, hperm.length_eq]; omega
  obtain ⟨m, hm⟩ := Line2D_construct_ok f _ hl
    (fun p hp => hmem p (List.mem_of_mem_take hp))
  have hev := Line2DModel.Evaluate_points m thr ((S.shuffle i e Data).1.drop 2)
    (fun p hp => hmem p (List.mem_of_mem_drop hp))
  unfold RANSAC.trial RANSAC.RandomSamples RANSAC.RemainderSamples
  rw [hm]
  simp only [Line2DClass] at hev ⊢
  rw [hev]
  exact ⟨_, rfl⟩

end GRANSAC

/-! ## The claims on `RANSAC::Estimate` -/

namespace GRANSAC.RANSAC

variable {M E : Type}

/-- The value `Estimate` returns, by the size of the data, when `m_MaxIterations` is not
negative and no iteration throws. -/
theorem Estimate_return_value_aux (T : ModelClass M) (S : Shuffler E) (t_NumParams : Nat)
    (self : RANSAC M E) (Data : List AbstractParameter)
    (hiter : 0 ≤ self.m_MaxIterations)
    (hrun : ∀ i e, ∃ r, trial T S t_NumParams self.m_Threshold Data i e = .ok r) :
    (Data.length ≤ t_NumParams → Estimate T S t_NumParams self Data = .ok (false, self)) ∧
    (t_NumParams < Data.length → ∃ s, Estimate T S t_NumParams self Data = .ok (true, s)) ∧
    ((∃ s, Estimate T S t_NumParams self Data = .ok (false, s)) ↔
      Data.length ≤ t_NumParams) ∧
    ((∃ s, Estimate T S t_NumParams self Data = .ok (true, s)) ↔
      t_NumParams < Data.length) ∧
    (Data.length = t_NumParams → Estimate T S t_NumParams self Data = .ok (false, self)) ∧
    (Data.length = t_NumParams + 1 →
      ∃ s, Estimate T S t_NumParams self Data = .ok (true, s)) := by
  have hfalse : Data.length ≤ t_NumParams →
      Estimate T S t_NumParams self Data = .ok (false, self) := by
    intro h
    simp [Estimate, h]
  have htrue : t_NumParams < Data.length →
      ∃ s, Estimate T S t_NumParams self Data = .ok (true, s) := by
    intro h
    obtain ⟨⟨res, e⟩, hres⟩ :=
      trials_ok T S t_NumParams self.m_Threshold Data hrun self.m_MaxIterations.toNat 0
        self.m_RandEngines
    have h1 : ¬ Data.length ≤ t_NumParams := by omega
    have h2 : ¬ self.m_MaxIterations < 0 := by omega
    refine ⟨Reset (reduction res.length res
      { self with
        m_Data := Data
        m_SampledModels := res.map (fun r => r.Model)
        m_RandEngines := e }), ?_⟩
    simp only [Estimate, trialsOf, h1, h2, if_false, hres]
  refine ⟨hfalse, htrue, ⟨?_, fun h => ⟨_, hfalse h⟩⟩, ⟨?_, htrue⟩,
    fun h => hfalse (by omega), fun h => htrue (by omega)⟩
  · rintro ⟨s, hs⟩
    by_contra hlen
    obtain ⟨s2, hs2⟩ := htrue (by omega)
    rw [hs2] at hs
    cases hs
  · rintro ⟨s, hs⟩
    by_contra hlen
    rw [hfalse (by omega)] at hs
    cases hs

/-- C1, as the code has it: `Estimate` returns `false`, with the estimator as it was,
exactly when the number of observations is at most `t_NumParams`, whatever the
configuration and the model class; it never returns `true` then, and never `false` on
more observations. With more observations it returns `true` when `m_MaxIterations` is
not negative and no iteration of the parallel loop throws (the constructor of the model
accepts its sample and `Evaluate` its batch). So it returns `false` for `t_NumParams`
observations and, under these two conditions, `true` for `t_NumParams + 1`. -/
theorem Estimate_return_value (T : ModelClass M) (S : Shuffler E) (t_NumParams : Nat)
    (self : RANSAC M E) (Data : List AbstractParameter) :
    (Estimate T S t_NumParams self Data = .ok (false, self) ↔ Data.length ≤ t_NumParams) ∧
    (∀ s, Estimate T S t_NumParams self Data = .ok (false, s) ↔
      Data.length ≤ t_NumParams ∧ s = self) ∧
    ((∃ s, Estimate T S t_NumParams self Data = .ok (false, s)) ↔
      Data.length ≤ t_NumParams) ∧
    (∀ s, Estimate T S t_NumParams self Data = .ok (true, s) → t_NumParams < Data.length) ∧
    (Data.length = t_NumParams → Estimate T S t_NumParams self Data = .ok (false, self)) ∧
    (0 ≤ self.m_MaxIterations →
      (∀ i e, ∃ r, trial T S t_NumParams self.m_Threshold Data i e = .ok r) →
      ((∃ s, Estimate T S t_NumParams self Data = .ok (true, s)) ↔
        t_NumParams < Data.length) ∧
      (Data.length = t_NumParams + 1 →
        ∃ s, Estimate T S t_NumParams self Data = .ok (true, s))) := by
  have hfalse : Data.length ≤ t_NumParams →
      Estimate T S t_NumParams self Data = .ok (false, self) := by
    intro h
    simp [Estimate, h]
  have hnot : ∀ s, Estimate T S t_NumParams self Data = .ok (false, s) →
      Data.length ≤ t_NumParams ∧ s = self := by
    intro s hs
    unfold Estimate at hs
    split at hs
    · rename_i hle
      simp only [Except.ok.injEq, Prod.mk.injEq, true_and] at hs
      exact ⟨hle, hs.symm⟩
    · split at hs
      · cases hs
      · split at hs
        · cases hs
        · simp at hs
  have htrue : ∀ s, Estimate T S t_NumParams self Data = .ok (true, s) →
      t_NumParams < Data.length := by
    intro s hs
    by_contra hlen
    rw [hfalse (by omega)] at hs
    cases hs
  refine ⟨⟨fun h => (hnot _ h).1, hfalse⟩, ?_, ?_, htrue, fun h => hfalse (by omega), ?_⟩
  · intro s
    constructor
    · exact hnot s
    · rintro ⟨hle, rfl⟩
      exact hfalse hle
  · constructor
    · rintro ⟨s, hs⟩
      exact (hnot s hs).1
    · intro h
      exact ⟨_, hfalse h⟩
  · intro hiter hrun
    have haux := Estimate_return_value_aux T S t_NumParams self Data hiter hrun
    exact ⟨haux.2.2.2.1, haux.2.2.2.2.2⟩

/-- C1, for `RANSAC<Line2DModel, 2>` after `Initialize(0.5, 2)`: on the single point
(0,0), where no iteration could run, `Estimate` returns `false` and leaves the estimator
as it was; on the three points (0,0), (10,0), (0,10), more than two, it returns `true`. -/
theorem Estimate_return_value_witness :
    Estimate (Line2DClass sqrtQ) rotShuffler 2 freshLine [pt 0 0] = .ok (false, freshLine) ∧
    ∃ s, Estimate (Line2DClass sqrtQ) rotShuffler 2 freshLine
      [pt 0 0, pt 10 0, pt 0 10] = .ok (true, s) :=
  ⟨(Estimate_return_value (Line2DClass sqrtQ) rotShuffler 2 freshLine [pt 0 0]).1.mpr
      (by decide),
    ((Estimate_return_value (Line2DClass sqrtQ) rotShuffler 2 freshLine
      [pt 0 0, pt 10 0, pt 0 10]).2.2.2.2.2 (by decide)
      (fun i e => Line2D_trial_ok sqrtQ rotShuffler _ _ i e
        (by intro p hp; simp only [List.mem_cons, List.mem_singleton, List.not_mem_nil,
              or_false] at hp
            rcases hp with rfl | rfl | rfl <;> exact ⟨_, rfl⟩)
        (by decide))).1.mpr (by decide)⟩

/-- C1 fails as stated: with three observations, more than `t_NumParams = 2`,
`RANSAC<Line2DModel, 2>::Estimate` does not return `true` when one observation is not a
`Point2D` (the exception of `Line2DModel` leaves the parallel loop), nor when
`m_MaxIterations` is negative (`std::vector<VPFloat>(m_MaxIterations)` throws). -/
theorem Estimate_more_data_without_true :
    Estimate (Line2DClass sqrtQ) rotShuffler 2 freshLine
      [pt 0 0, pt 1 0, AbstractParameter.notPoint2D 7] = .error .distanceTypeMismatch ∧
    Estimate (Line2DClass sqrtQ) rotShuffler 2 (freshLine.Initialize (.fin (1 / 2)) (-1))
      [pt 0 0, pt 10 0, pt 0 10] = .error .lengthError := by
  decide!

/-- C2: with at most `t_NumParams` observations `Estimate` returns `false` and the
estimator it leaves is the estimator it found, member by member; so `GetBestModel` and
`GetBestInliers` return what they returned before. On a freshly constructed estimator,
also after `Initialize`, `GetBestModel` is empty before the call and after it. -/
theorem Estimate_too_few_keeps_state (T : ModelClass M) (S : Shuffler E)
    (t_NumParams : Nat) (self : RANSAC M E) (Data : List AbstractParameter)
    (hlen : Data.length ≤ t_NumParams) :
    Estimate T S t_NumParams self Data = .ok (false, self) ∧
    (∀ b s, Estimate T S t_NumParams self Data = .ok (b, s) →
      s = self ∧ s.GetBestModel = self.GetBestModel ∧
      s.GetBestInliers = self.GetBestInliers) ∧
    (∀ (engines : E) (thr0 : VPFloat) (it0 : Int),
      Estimate T S t_NumParams (new engines thr0 it0) Data =
        .ok (false, new engines thr0 it0) ∧
      (new engines thr0 it0 : RANSAC M E).GetBestModel = none) ∧
    (∀ (engines : E) (thr0 thr : VPFloat) (it0 it : Int),
      Estimate T S t_NumParams ((new engines thr0 it0).Initialize thr it) Data =
        .ok (false, (new engines thr0 it0).Initialize thr it) ∧
      ((new engines thr0 it0 : RANSAC M E).Initialize thr it).GetBestModel = none) := by
  have h : ∀ s : RANSAC M E, Estimate T S t_NumParams s Data = .ok (false, s) := by
    intro s
    simp [Estimate, hlen]
  refine ⟨h self, ?_, fun _ _ _ => ⟨h _, rfl⟩, fun _ _ _ _ _ => ⟨h _, rfl⟩⟩
  intro b s hs
  rw [h self] at hs
  simp only [Except.ok.injEq, Prod.mk.injEq] at hs
  rw [← hs.2]
  exact ⟨rfl, rfl, rfl⟩

/-- C2, for `RANSAC<Line2DModel, 2>` after `Initialize(0.5, 2)` and the two points (0,0),
(1,1): the call returns `false` and `GetBestModel` is still empty. -/
theorem Estimate_too_few_keeps_state_witness :
    Estimate (Line2DClass sqrtQ) rotShuffler 2 freshLine [pt 0 0, pt 1 1] =
      .ok (false, freshLine) ∧ freshLine.GetBestModel = none :=
  ⟨(Estimate_too_few_keeps_state (Line2DClass sqrtQ) rotShuffler 2 freshLine
    [pt 0 0, pt 1 1] (by decide)).1, rfl⟩

end GRANSAC.RANSAC

namespace GRANSAC.RANSAC

variable {M E : Type}

/-- What an iteration of the parallel loop that does not throw did. -/
theorem trial_inv (T : ModelClass M) (S : Shuffler E) (k : Nat) (thr : VPFloat)
    (Data : List AbstractParameter) (i : Nat) (e e1 : E) (r : TrialResult M)
    (h : trial T S k thr Data i e = .ok (r, e1)) :
    T.construct (RandomSamples S k Data i e) = .ok r.Model ∧
    T.Evaluate r.Model (RemainderSamples S k Data i e) thr =
      .ok (r.InlierFraction, r.Inliers) := by
  unfold trial at h
  split at h
  · cases h
  · rename_i m hm
    split at h
    · cases h
    · rename_i p hp
      simp only [Except.ok.injEq, Prod.mk.injEq] at h
      rw [← h.1]
      exact ⟨hm, hp⟩

theorem RemainderSamples_length (S : Shuffler E) (k : Nat) (Data : List AbstractParameter)
    (i : Nat) (e : E) : (RemainderSamples S k Data i e).length = Data.length - k := by
  unfold RemainderSamples
  rw [List.length_drop, (S.perm i e Data).length_eq]

theorem Random_append_Remainder (S : Shuffler E) (k : Nat) (Data : List AbstractParameter)
    (i : Nat) (e : E) :
    List.Perm (RandomSamples S k Data i e ++ RemainderSamples S k Data i e) Data := by
  unfold RandomSamples RemainderSamples
  rw [List.take_append_drop]
  exact S.perm i e Data

/-- C8: in the iteration `i` of the parallel loop, from any state `e` of the engines, on
data with more than `t_NumParams` observations: the shuffled vector is a permutation of the
data, `RandomSamples` is its first `t_NumParams` elements and `RemainderSamples` the
rest, of lengths `t_NumParams` and `|data| - t_NumParams`; `RandomSamples` followed by
`RemainderSamples` is a permutation of the data, so each observation occurs in the two
together as often as in the data. The model is constructed from `RandomSamples` and
evaluated on `RemainderSamples`. -/
theorem trial_sample_and_batch_split_the_data (T : ModelClass M) (S : Shuffler E)
    (t_NumParams : Nat) (m_Threshold : VPFloat) (Data : List AbstractParameter)
    (i : Nat) (e : E) (hlen : t_NumParams < Data.length) :
    List.Perm (S.shuffle i e Data).1 Data ∧
    RandomSamples S t_NumParams Data i e = (S.shuffle i e Data).1.take t_NumParams ∧
    RemainderSamples S t_NumParams Data i e = (S.shuffle i e Data).1.drop t_NumParams ∧
    (RandomSamples S t_NumParams Data i e).length = t_NumParams ∧
    (RemainderSamples S t_NumParams Data i e).length = Data.length - t_NumParams ∧
    List.Perm (RandomSamples S t_NumParams Data i e ++ RemainderSamples S t_NumParams Data i e)
      Data ∧
    (∀ p, (RandomSamples S t_NumParams Data i e).count p +
      (RemainderSamples S t_NumParams Data i e).count p = Data.count p) ∧
    (∀ r e1, trial T S t_NumParams m_Threshold Data i e = .ok (r, e1) →
      T.construct (RandomSamples S t_NumParams Data i e) = .ok r.Model ∧
      T.Evaluate r.Model (RemainderSamples S t_NumParams Data i e) m_Threshold =
        .ok (r.InlierFraction, r.Inliers)) := by
  refine ⟨S.perm i e Data, rfl, rfl, ?_, RemainderSamples_length S _ Data i e,
    Random_append_Remainder S _ Data i e, ?_, ?_⟩
  · unfold RandomSamples
    rw [List.length_take, (S.perm i e Data).length_eq]
    omega
  · intro p
    rw [← List.count_append]
    exact (Random_append_Remainder S _ Data i e).count_eq p
  · intro r e1 h
    exact trial_inv T S _ _ Data i e e1 r h

/-- C8, for the second iteration on the three points (0,0), (10,0), (0,10): the sample is
(0,10), (0,0) and the batch is (10,0). -/
theorem trial_sample_and_batch_split_the_data_witness :
    RandomSamples rotShuffler 2 spread3 1 1 = [pt 0 10, pt 0 0] ∧
    RemainderSamples rotShuffler 2 spread3 1 1 = [pt 10 0] ∧
    List.Perm (RandomSamples rotShuffler 2 spread3 1 1 ++
      RemainderSamples rotShuffler 2 spread3 1 1) spread3 :=
  ⟨by decide, by decide,
    (trial_sample_and_batch_split_the_data (Line2DClass sqrtQ) rotShuffler 2 (.fin (1 / 2))
      spread3 1 1 (by decide)).2.2.2.2.2.1⟩

/-- The best result after a call of `Estimate` that returned `true`: that of a slot of
the call, or the one stored before. -/
theorem Estimate_stores_a_trial_or_keeps_the_old_aux (T : ModelClass M) (S : Shuffler E)
    (t_NumParams : Nat) (self s1 : RANSAC M E) (Data : List AbstractParameter)
    (hcall : Estimate T S t_NumParams self Data = .ok (true, s1))
    (hreset : self.m_BestModelScore = VPFloat.fin 0) :
    ∃ res e, trialsOf T S t_NumParams self Data = .ok (res, e) ∧
      ((∃ r ∈ res, VPFloat.lt (VPFloat.fin 0) r.InlierFraction = true) →
        ∃ r ∈ res, s1.GetBestModel = some r.Model ∧ s1.GetBestInliers = r.Inliers) ∧
      ((∀ r ∈ res, VPFloat.lt (VPFloat.fin 0) r.InlierFraction = false) →
        s1.GetBestModel = self.GetBestModel ∧ s1.GetBestInliers = self.GetBestInliers) := by
  obtain ⟨-, -, res, e, hres, hs1⟩ := Estimate_true_inv T S t_NumParams self s1 Data hcall
  refine ⟨res, e, hres, ?_, ?_⟩
  · rintro ⟨r, hr, hpos⟩
    rcases reduction_cases res.length res
      ({ self with
          m_Data := Data
          m_SampledModels := res.map (fun r => r.Model)
          m_RandEngines := e } : RANSAC M E) with ⟨-, hall⟩ | ⟨x, hx, -, h1, h2, -⟩
    · have := hall r hr
      simp only [hreset] at this
      rw [this] at hpos
      cases hpos
    · refine ⟨x, hx, ?_, ?_⟩
      · rw [hs1]; exact h1
      · rw [hs1]; exact h2
  · intro hall
    have hun := reduction_unchanged res.length res
      ({ self with
          m_Data := Data
          m_SampledModels := res.map (fun r => r.Model)
          m_RandEngines := e } : RANSAC M E) (by simpa only [hreset] using hall)
    rw [hs1, hun]
    exact ⟨rfl, rfl⟩

/-- C3, as the code has it: after a call of `Estimate` that returned `true`, on an
estimator whose running score was 0 as `Reset` leaves it, with `res` the slots the
parallel loop of this call filled: if some slot has an inlier fraction above 0, the best
model and the best inliers stored are the model and the inliers of one slot of this
call, whatever was stored before; if no slot has an inlier fraction above 0, the best
model and the best inliers are the ones stored before the call. -/
theorem Estimate_stores_a_trial_or_keeps_the_old (T : ModelClass M) (S : Shuffler E)
    (t_NumParams : Nat) (self s1 : RANSAC M E) (Data : List AbstractParameter)
    (hcall : Estimate T S t_NumParams self Data = .ok (true, s1))
    (hreset : self.m_BestModelScore = VPFloat.fin 0) :
    ∃ res e, trialsOf T S t_NumParams self Data = .ok (res, e) ∧
      ((∃ r ∈ res, VPFloat.lt (VPFloat.fin 0) r.InlierFraction = true) →
        ∃ r ∈ res, s1.GetBestModel = some r.Model ∧ s1.GetBestInliers = r.Inliers) ∧
      ((∀ r ∈ res, VPFloat.lt (VPFloat.fin 0) r.InlierFraction = false) →
        s1.GetBestModel = self.GetBestModel ∧ s1.GetBestInliers = self.GetBestInliers) :=
  Estimate_stores_a_trial_or_keeps_the_old_aux T S t_NumParams self s1 Data hcall hreset

/-- C3, for a fresh `RANSAC<Line2DModel, 2>` after `Initialize(0.5, 2)` on four points of
the line y = 0: the call returns `true`, both iterations have the inlier fraction 1, and
the best model and the best inliers stored are those of one of them. -/
theorem Estimate_stores_a_trial_or_keeps_the_old_witness :
    Estimate (Line2DClass sqrtQ) rotShuffler 2 freshLine onLineY0 =
      .ok (true, afterOnLineY0) ∧
    ∃ res e, trialsOf (Line2DClass sqrtQ) rotShuffler 2 freshLine onLineY0 = .ok (res, e) ∧
      ∃ r ∈ res, afterOnLineY0.GetBestModel = some r.Model ∧
        afterOnLineY0.GetBestInliers = r.Inliers := by
  have hcall : Estimate (Line2DClass sqrtQ) rotShuffler 2 freshLine onLineY0 =
      .ok (true, afterOnLineY0) := by decide!
  obtain ⟨res, e, hres, h1, -⟩ :=
    Estimate_stores_a_trial_or_keeps_the_old (Line2DClass sqrtQ) rotShuffler 2 freshLine
      afterOnLineY0 onLineY0 hcall rfl
  have hres2 : trialsOf (Line2DClass sqrtQ) rotShuffler 2 freshLine onLineY0 =
      .ok ([{ InlierFraction := .fin 1, Inliers := [pt 2 0, pt 3 0], Model := lineY0 },
            { InlierFraction := .fin 1, Inliers := [pt 0 0, pt 1 0], Model := lineY0b }],
           2) := by decide!
  rw [hres2] at hres
  simp only [Except.ok.injEq, Prod.mk.injEq] at hres
  refine ⟨hcall, res, e, hres2.trans (by rw [hres.1, hres.2]), ?_⟩
  apply h1
  rw [← hres.1]
  exact ⟨_, List.mem_cons_self _ _, by decide!⟩

/-- C3 fails as stated: a fresh `RANSAC<Line2DModel, 2>` after `Initialize(0.5, 2)`, on
the three points (0,0), (10,0), (0,10). The call returns `true`; its two iterations have
the inlier fraction 0 (the line through (0,0) and (10,0) misses (0,10) by 10, and the
sample (0,10), (0,0) has no slope), 0 is not above the starting score 0, and
`GetBestModel` is still empty after the call. -/
theorem Estimate_true_and_no_best_model :
    Estimate (Line2DClass sqrtQ) rotShuffler 2 freshLine spread3 =
      .ok (true, { freshLine with m_RandEngines := 2 }) ∧
    ({ freshLine with m_RandEngines := 2 } : RANSAC Line2DModel Nat).GetBestModel = none ∧
    (trialsOf (Line2DClass sqrtQ) rotShuffler 2 freshLine spread3).toOption.map
      (fun p => p.1.map (fun r => r.InlierFraction)) = some [.fin 0, .fin 0] := by
  decide!

end GRANSAC.RANSAC

theorem List.split_at_getElem? {α : Type} (l : List α) (i : Nat) (a : α)
    (h : l[i]? = some a) :
    ∃ pre post, l = pre ++ a :: post ∧
      (∀ y ∈ pre, ∃ j : Nat, j < i ∧ l[j]? = some y) ∧
      (∀ y ∈ post, ∃ j : Nat, l[j]? = some y) := by
  induction l generalizing i with
  | nil => simp at h
  | cons x xs ih =>
    cases i with
    | zero =>
      simp only [List.getElem?_cons_zero, Option.some.injEq] at h
      subst h
      refine ⟨[], xs, rfl, by simp, ?_⟩
      intro y hy
      obtain ⟨j, hj⟩ := List.mem_iff_getElem?.mp hy
      exact ⟨j + 1, by simpa using hj⟩
    | succ i =>
      simp only [List.getElem?_cons_succ] at h
      obtain ⟨pre, post, hl, hpre, hpost⟩ := ih i h
      refine ⟨x :: pre, post, by rw [hl]; rfl, ?_, ?_⟩
      · intro y hy
        rcases List.mem_cons.mp hy with rfl | hy
        · exact ⟨0, by omega, List.getElem?_cons_zero⟩
        · obtain ⟨j, hj, hjy⟩ := hpre y hy
          exact ⟨j + 1, by omega, by simpa using hjy⟩
      · intro y hy
        obtain ⟨j, hjy⟩ := hpost y hy
        exact ⟨j + 1, by simpa using hjy⟩

namespace GRANSAC.RANSAC

variable {M E : Type}

/-- C4: after a call of `Estimate` that returned `true`, on an estimator whose running
score was 0 as `Reset` leaves it, let `res` be the slots the parallel loop filled, one
per index 0 .. m_MaxIterations - 1. If slot `i` holds a fraction that is above 0, that no
slot exceeds, and that no slot of a smaller index equals, then the best model and the
best inliers stored are those of slot `i`, also when a later slot has the same fraction.
These conditions speak of the fractions only and single out one index, and such an
index exists as soon as some slot holds a fraction above 0. -/
theorem Estimate_keeps_the_first_of_the_greatest (T : ModelClass M) (S : Shuffler E)
    (t_NumParams : Nat) (self s1 : RANSAC M E) (Data : List AbstractParameter)
    (hcall : Estimate T S t_NumParams self Data = .ok (true, s1))
    (hreset : self.m_BestModelScore = VPFloat.fin 0)
    (res : List (TrialResult M)) (e : E)
    (hres : trialsOf T S t_NumParams self Data = .ok (res, e)) :
    (res.length : Int) = self.m_MaxIterations ∧
    (∀ (i : Nat) (r : TrialResult M), res[i]? = some r →
      VPFloat.lt (VPFloat.fin 0) r.InlierFraction = true →
      (∀ (j : Nat) (y : TrialResult M), res[j]? = some y →
        VPFloat.lt r.InlierFraction y.InlierFraction = false) →
      (∀ (j : Nat) (y : TrialResult M), j < i → res[j]? = some y →
        y.InlierFraction ≠ r.InlierFraction) →
      s1.GetBestModel = some r.Model ∧ s1.GetBestInliers = r.Inliers ∧
      (∀ (i2 : Nat) (r2 : TrialResult M), res[i2]? = some r2 →
        VPFloat.lt (VPFloat.fin 0) r2.InlierFraction = true →
        (∀ (j : Nat) (y : TrialResult M), res[j]? = some y →
          VPFloat.lt r2.InlierFraction y.InlierFraction = false) →
        (∀ (j : Nat) (y : TrialResult M), j < i2 → res[j]? = some y →
          y.InlierFraction ≠ r2.InlierFraction) →
        i2 = i)) ∧
    ((∃ y ∈ res, VPFloat.lt (VPFloat.fin 0) y.InlierFraction = true) →
      ∃ (i : Nat) (r : TrialResult M), res[i]? = some r ∧
        VPFloat.lt (VPFloat.fin 0) r.InlierFraction = true ∧
        (∀ (j : Nat) (y : TrialResult M), res[j]? = some y →
          VPFloat.lt r.InlierFraction y.InlierFraction = false) ∧
        (∀ (j : Nat) (y : TrialResult M), j < i → res[j]? = some y →
          y.InlierFraction ≠ r.InlierFraction)) := by
  obtain ⟨-, hiter, res2, e2, hres2, hs1⟩ :=
    Estimate_true_inv T S t_NumParams self s1 Data hcall
  rw [hres] at hres2
  simp only [Except.ok.injEq, Prod.mk.injEq] at hres2
  obtain ⟨rfl, rfl⟩ := hres2
  have hlen : res.length = self.m_MaxIterations.toNat :=
    trials_length T S t_NumParams self.m_Threshold Data _ _ _ _ _ hres
  refine ⟨by rw [hlen]; exact Int.toNat_of_nonneg hiter, ?_, ?_⟩
  · intro i r hi hpos hmax hfirst
    obtain ⟨pre, post, hsplit, hpre, hpost⟩ := List.split_at_getElem? res i r hi
    have hbest := reduction_first_max res.length pre post r
      ({ self with
          m_Data := Data
          m_SampledModels := res.map (fun r => r.Model)
          m_RandEngines := e } : RANSAC M E)
      (by simpa only [hreset] using hpos)
      (fun y hy => by
        obtain ⟨j, hj, hjy⟩ := hpre y hy
        exact ⟨hfirst j y hj hjy, hmax j y hjy⟩)
      (fun y hy => by
        obtain ⟨j, hjy⟩ := hpost y hy
        exact hmax j y hjy)
    rw [← hsplit] at hbest
    refine ⟨?_, ?_, ?_⟩
    · rw [hs1]; exact hbest.1
    · rw [hs1]; exact hbest.2.1
    · intro i2 r2 hi2 hpos2 hmax2 hfirst2
      have heq : r2.InlierFraction = r.InlierFraction := by
        rcases VPFloat.vlt_total (VPFloat.vlt_not_nan hpos2).2 (VPFloat.vlt_not_nan hpos).2
          with h | h | h
        · rw [hmax2 i r hi] at h; cases h
        · exact h
        · rw [hmax i2 r2 hi2] at h; cases h
      rcases Nat.lt_trichotomy i2 i with h | h | h
      · exact absurd heq (hfirst i2 r2 h hi2)
      · exact h
      · exact absurd heq.symm (hfirst2 i r h hi)
  · rintro ⟨y, hy, hypos⟩
    rcases reduction_cases res.length res
      ({ self with
          m_Data := Data
          m_SampledModels := res.map (fun r => r.Model)
          m_RandEngines := e } : RANSAC M E) with ⟨-, hall⟩ | ⟨x, hx, hxpos, -, -, hscore⟩
    · have := hall y hy
      simp only [hreset] at this
      rw [this] at hypos
      cases hypos
    · have hmaxall := reduction_score_max res.length res
        ({ self with
            m_Data := Data
            m_SampledModels := res.map (fun r => r.Model)
            m_RandEngines := e } : RANSAC M E)
      rw [hscore] at hmaxall
      simp only [hreset] at hxpos
      have hex : ∃ j : Nat, ∃ z, res[j]? = some z ∧ z.InlierFraction = x.InlierFraction := by
        obtain ⟨j, hj⟩ := List.mem_iff_getElem?.mp hx
        exact ⟨j, x, hj, rfl⟩
      classical
      obtain ⟨z, hz, hzeq⟩ := Nat.find_spec hex
      refine ⟨Nat.find hex, z, hz, by rw [hzeq]; exact hxpos, ?_, ?_⟩
      · intro j w hw
        rw [hzeq]
        exact hmaxall w (List.getElem?_mem hw)
      · intro j w hj hw hweq
        exact Nat.find_min hex hj ⟨w, hw, hweq.trans hzeq⟩

/-- C4, for a fresh `RANSAC<Line2DModel, 2>` after `Initialize(0.5, 2)` on four points of
the line y = 0: both slots hold the fraction 1, and the best model is that of slot 0. -/
theorem Estimate_keeps_the_first_of_the_greatest_witness :
    Estimate (Line2DClass sqrtQ) rotShuffler 2 freshLine onLineY0 =
      .ok (true, afterOnLineY0) ∧
    trialsOf (Line2DClass sqrtQ) rotShuffler 2 freshLine onLineY0 =
      .ok ([{ InlierFraction := .fin 1, Inliers := [pt 2 0, pt 3 0], Model := lineY0 },
            { InlierFraction := .fin 1, Inliers := [pt 0 0, pt 1 0], Model := lineY0b }],
           2) ∧
    afterOnLineY0.GetBestModel = some lineY0 ∧
    afterOnLineY0.GetBestInliers = [pt 2 0, pt 3 0] :=
  have hcall : Estimate (Line2DClass sqrtQ) rotShuffler 2 freshLine onLineY0 =
      .ok (true, afterOnLineY0) := by decide!
  have hres : trialsOf (Line2DClass sqrtQ) rotShuffler 2 freshLine onLineY0 =
      .ok ([{ InlierFraction := .fin 1, Inliers := [pt 2 0, pt 3 0], Model := lineY0 },
            { InlierFraction := .fin 1, Inliers := [pt 0 0, pt 1 0], Model := lineY0b }],
           2) := by decide!
  have h := (Estimate_keeps_the_first_of_the_greatest (Line2DClass sqrtQ) rotShuffler 2
    freshLine afterOnLineY0 onLineY0 hcall rfl _ 2 hres).2.1 0
    { InlierFraction := .fin 1, Inliers := [pt 2 0, pt 3 0], Model := lineY0 } rfl
    (by decide!)
    (by
      intro j y hy
      rcases j with _ | _ | j
      · simp only [List.getElem?_cons_zero, Option.some.injEq] at hy
        rw [← hy]; decide!
      · simp only [List.getElem?_cons_succ, List.getElem?_cons_zero,
          Option.some.injEq] at hy
        rw [← hy]; decide!
      · simp at hy)
    (by intro j y hj; omega)
  ⟨hcall, hres, h.1, h.2.1⟩

end GRANSAC.RANSAC

namespace GRANSAC.RANSAC

variable {M E : Type}

/-- Every slot the parallel loop filled was filled by an iteration of the loop body. -/
theorem trialsOf_mem (T : ModelClass M) (S : Shuffler E) (k : Nat) (self : RANSAC M E)
    (Data : List AbstractParameter) (res : List (TrialResult M)) (e : E)
    (hres : trialsOf T S k self Data = .ok (res, e)) (r : TrialResult M) (hr : r ∈ res) :
    ∃ (i : Nat) (e2 e3 : E), i < self.m_MaxIterations.toNat ∧
      trial T S k self.m_Threshold Data i e2 = .ok (r, e3) := by
  obtain ⟨j, hj⟩ := List.mem_iff_getElem?.mp hr
  have hlen := trials_length T S k self.m_Threshold Data _ _ _ _ _ hres
  obtain ⟨e2, e3, h⟩ := trials_getElem T S k self.m_Threshold Data _ _ _ _ _ hres j r hj
  rw [Nat.zero_add] at h
  obtain ⟨hlt, -⟩ := List.getElem?_eq_some.mp hj
  exact ⟨j, e2, e3, by omega, h⟩

/-- C5: after a call of `Estimate` that returned `true`, on an estimator whose running
score was 0 as `Reset` leaves it, for a model class whose `Evaluate` returns as fraction
the number of its inliers divided by the size of its batch: the quotient of the number
of best inliers by `|data| - t_NumParams`, the size of every batch of the call, is
greater than or equal to the inlier fraction in every slot the parallel loop filled. -/
theorem best_fraction_ge_every_trial (T : ModelClass M) (S : Shuffler E)
    (t_NumParams : Nat) (self s1 : RANSAC M E) (Data : List AbstractParameter)
    (hcall : Estimate T S t_NumParams self Data = .ok (true, s1))
    (hreset : self.m_BestModelScore = VPFloat.fin 0)
    (hT : ∀ m batch thr f inl, T.Evaluate m batch thr = .ok (f, inl) →
      f = VPFloat.div (VPFloat.ofNat inl.length) (VPFloat.ofNat batch.length)) :
    ∃ res e, trialsOf T S t_NumParams self Data = .ok (res, e) ∧
      (res.length : Int) = self.m_MaxIterations ∧
      ∀ r ∈ res,
        VPFloat.le r.InlierFraction
          (VPFloat.div (VPFloat.ofNat s1.GetBestInliers.length)
            (VPFloat.ofNat (Data.length - t_NumParams))) = true := by
  obtain ⟨hk, hiter, res, e, hres, hs1⟩ :=
    Estimate_true_inv T S t_NumParams self s1 Data hcall
  have hlen : res.length = self.m_MaxIterations.toNat :=
    trials_length T S t_NumParams self.m_Threshold Data _ _ _ _ _ hres
  have hn : Data.length - t_NumParams ≠ 0 := by omega
  have hfrac : ∀ r ∈ res, r.InlierFraction =
      VPFloat.fin ((r.Inliers.length : ℚ) / ((Data.length - t_NumParams : ℕ) : ℚ)) := by
    intro r hr
    obtain ⟨i, e2, e3, -, htr⟩ := trialsOf_mem T S t_NumParams self Data res e hres r hr
    have hev := (trial_inv T S t_NumParams _ Data i e2 e3 r htr).2
    rw [hT _ _ _ _ _ hev, RemainderSamples_length, VPFloat.div_ofNat _ _ hn]
  refine ⟨res, e, hres, by rw [hlen]; exact Int.toNat_of_nonneg hiter, ?_⟩
  intro r hr
  rw [VPFloat.div_ofNat _ _ hn, hfrac r hr]
  have hpos : (0 : ℚ) < ((Data.length - t_NumParams : ℕ) : ℚ) := by
    exact_mod_cast Nat.pos_of_ne_zero hn
  simp only [VPFloat.le, decide_eq_true_eq]
  rcases reduction_cases res.length res
    ({ self with
        m_Data := Data
        m_SampledModels := res.map (fun r => r.Model)
        m_RandEngines := e } : RANSAC M E) with ⟨heq, hall⟩ | ⟨x, hx, -, -, h2, h3⟩
  · have h0 := hall r hr
    simp only [hreset] at h0
    rw [hfrac r hr] at h0
    simp only [VPFloat.lt, decide_eq_false_iff_not, not_lt] at h0
    have hge : (0 : ℚ) ≤
        (s1.GetBestInliers.length : ℚ) / ((Data.length - t_NumParams : ℕ) : ℚ) := by
      positivity
    exact le_trans h0 hge
  · have hmax := reduction_score_max res.length res
      ({ self with
          m_Data := Data
          m_SampledModels := res.map (fun r => r.Model)
          m_RandEngines := e } : RANSAC M E) r hr
    rw [h3, hfrac x hx, hfrac r hr] at hmax
    simp only [VPFloat.lt, decide_eq_false_iff_not, not_lt] at hmax
    have hb : s1.GetBestInliers = x.Inliers := by rw [hs1]; exact h2
    rw [hb]
    exact hmax

end GRANSAC.RANSAC

namespace Line2DModel

/-- What a call of `Line2DModel::Evaluate` that returns has returned. -/
theorem Evaluate_ok_inv (self : Line2DModel) (batch : List AbstractParameter)
    (thr f : VPFloat) (inl : List AbstractParameter)
    (h : self.Evaluate batch thr = .ok (f, inl)) :
    inl = batch.filter (self.isInlier thr) ∧
    f = VPFloat.div (VPFloat.ofNat inl.length) (VPFloat.ofNat batch.length) := by
  by_cases hp : ∀ p ∈ batch, ∃ q, p = AbstractParameter.point2D q
  · rw [Evaluate_points self thr batch hp] at h
    simp only [Except.ok.injEq, Prod.mk.injEq] at h
    rw [← h.2, ← h.1]
    exact ⟨rfl, rfl⟩
  · have hnp : ∃ p ∈ batch, p.asPoint2D = none := by
      by_contra hcon
      apply hp
      intro p hpm
      cases p with
      | point2D q => exact ⟨q, rfl⟩
      | notPoint2D id => exact absurd ⟨_, hpm, rfl⟩ hcon
    rw [Evaluate_notPoint self thr batch hnp] at h
    cases h

end Line2DModel

namespace GRANSAC.RANSAC

/-- C5, for a fresh `RANSAC<Line2DModel, 2>` after `Initialize(0.5, 2)` on four points of
the line y = 0: the two best inliers over the batch size 4 - 2 are as much as the
fraction 1 of either slot. -/
theorem best_fraction_ge_every_trial_witness :
    ∃ res e, trialsOf (Line2DClass sqrtQ) rotShuffler 2 freshLine onLineY0 = .ok (res, e) ∧
      (res.length : Int) = 2 ∧
      ∀ r ∈ res,
        VPFloat.le r.InlierFraction
          (VPFloat.div (VPFloat.ofNat afterOnLineY0.GetBestInliers.length)
            (VPFloat.ofNat (onLineY0.length - 2))) = true :=
  best_fraction_ge_every_trial (Line2DClass sqrtQ) rotShuffler 2 freshLine afterOnLineY0
    onLineY0 (by decide!) rfl
    (fun m batch thr f inl h => (Line2DModel.Evaluate_ok_inv m batch thr f inl h).2)

end GRANSAC.RANSAC

namespace GRANSAC.RANSAC

variable {M E : Type}

/-- C9, as the code has it: after a call of `Estimate` that returned `true`, on an
estimator whose running score was 0 as `Reset` leaves it, for a model class whose
`Evaluate` returns a sub-sequence of its batch. If some slot of the call has an inlier
fraction above 0, the best inliers are the inliers of an iteration of this call whose
model is the best model: they are a sub-sequence of the `RemainderSamples` of that
iteration, its `RandomSamples` followed by them is still contained in the data occurrence
by occurrence, and they are at most `|data| - t_NumParams`. If no slot has an inlier
fraction above 0, the best inliers are those stored before the call. -/
theorem best_inliers_of_the_winning_batch (T : ModelClass M) (S : Shuffler E)
    (t_NumParams : Nat) (self s1 : RANSAC M E) (Data : List AbstractParameter)
    (hcall : Estimate T S t_NumParams self Data = .ok (true, s1))
    (hreset : self.m_BestModelScore = VPFloat.fin 0)
    (hT : ∀ m batch thr f inl, T.Evaluate m batch thr = .ok (f, inl) →
      List.Sublist inl batch) :
    ∃ res e, trialsOf T S t_NumParams self Data = .ok (res, e) ∧
      ((∃ r ∈ res, VPFloat.lt (VPFloat.fin 0) r.InlierFraction = true) →
        ∃ (i : Nat) (e2 e3 : E) (r : TrialResult M),
          i < self.m_MaxIterations.toNat ∧
          trial T S t_NumParams self.m_Threshold Data i e2 = .ok (r, e3) ∧
          s1.GetBestModel = some r.Model ∧
          s1.GetBestInliers = r.Inliers ∧
          List.Sublist s1.GetBestInliers (RemainderSamples S t_NumParams Data i e2) ∧
          List.Subperm (RandomSamples S t_NumParams Data i e2 ++ s1.GetBestInliers) Data ∧
          s1.GetBestInliers.length ≤ Data.length - t_NumParams) ∧
      ((∀ r ∈ res, VPFloat.lt (VPFloat.fin 0) r.InlierFraction = false) →
        s1.GetBestInliers = self.GetBestInliers) := by
  obtain ⟨res, e, hres, hsome, hnone⟩ :=
    Estimate_stores_a_trial_or_keeps_the_old_aux T S t_NumParams self s1 Data hcall hreset
  refine ⟨res, e, hres, ?_, fun h => (hnone h).2⟩
  intro hpos
  obtain ⟨r, hr, hm, hinl⟩ := hsome hpos
  obtain ⟨i, e2, e3, hi, htr⟩ := trialsOf_mem T S t_NumParams self Data res e hres r hr
  have hev := (trial_inv T S t_NumParams _ Data i e2 e3 r htr).2
  have hsub : List.Sublist s1.GetBestInliers (RemainderSamples S t_NumParams Data i e2) := by
    rw [hinl]; exact hT _ _ _ _ _ hev
  refine ⟨i, e2, e3, r, hi, htr, hm, hinl, hsub, ?_, ?_⟩
  · exact (List.Sublist.subperm (hsub.append_left _)).trans
      (Random_append_Remainder S t_NumParams Data i e2).subperm
  · have := hsub.length_le
    rw [RemainderSamples_length] at this
    exact this

/-- C9, for a fresh `RANSAC<Line2DModel, 2>` after `Initialize(0.5, 2)` on four points of
the line y = 0: the best inliers (2,0), (3,0) are inliers of an iteration of the call and
at most 4 - 2. -/
theorem best_inliers_of_the_winning_batch_witness :
    Estimate (Line2DClass sqrtQ) rotShuffler 2 freshLine onLineY0 =
      .ok (true, afterOnLineY0) ∧
    ∃ (i : Nat) (e2 e3 : Nat) (r : TrialResult Line2DModel),
      trial (Line2DClass sqrtQ) rotShuffler 2 freshLine.m_Threshold onLineY0 i e2 =
        .ok (r, e3) ∧
      afterOnLineY0.GetBestInliers = r.Inliers ∧
      List.Sublist afterOnLineY0.GetBestInliers (RemainderSamples rotShuffler 2 onLineY0 i e2) ∧
      afterOnLineY0.GetBestInliers.length ≤ onLineY0.length - 2 := by
  have hcall : Estimate (Line2DClass sqrtQ) rotShuffler 2 freshLine onLineY0 =
      .ok (true, afterOnLineY0) := by decide!
  obtain ⟨res, e, hres, h1, -⟩ :=
    best_inliers_of_the_winning_batch (Line2DClass sqrtQ) rotShuffler 2 freshLine
      afterOnLineY0 onLineY0 hcall rfl
      (fun m batch thr f inl h => by
        rw [(Line2DModel.Evaluate_ok_inv m batch thr f inl h).1]
        exact List.filter_sublist _)
  have hres2 : trialsOf (Line2DClass sqrtQ) rotShuffler 2 freshLine onLineY0 =
      .ok ([{ InlierFraction := .fin 1, Inliers := [pt 2 0, pt 3 0], Model := lineY0 },
            { InlierFraction := .fin 1, Inliers := [pt 0 0, pt 1 0], Model := lineY0b }],
           2) := by decide!
  rw [hres2] at hres
  simp only [Except.ok.injEq, Prod.mk.injEq] at hres
  obtain ⟨i, e2, e3, r, -, htr, -, hinl, hsub, -, hle⟩ :=
    h1 (by rw [← hres.1]; exact ⟨_, List.mem_cons_self _ _, by decide!⟩)
  exact ⟨hcall, i, e2, e3, r, htr, hinl, hsub, hle⟩

/-- C9 fails as stated: a fresh `RANSAC<Line2DModel, 2>` after `Initialize(0.5, 2)` is
run on four points of the line y = 0 and then on the three points (0,0), (10,0), (0,10).
Both calls return `true`. No iteration of the second call has an inlier fraction above
0, so after it `GetBestInliers` is still (2,0), (3,0) from the first call: two
observations, more than 3 - 2, and (2,0) is not among the data of the second call. -/
theorem best_inliers_left_from_an_earlier_call :
    Estimate (Line2DClass sqrtQ) rotShuffler 2 freshLine onLineY0 =
      .ok (true, afterOnLineY0) ∧
    Estimate (Line2DClass sqrtQ) rotShuffler 2 afterOnLineY0 spread3 =
      .ok (true, { afterOnLineY0 with m_RandEngines := 4 }) ∧
    ({ afterOnLineY0 with m_RandEngines := 4 } : RANSAC Line2DModel Nat).GetBestInliers =
      [pt 2 0, pt 3 0] ∧
    ¬ ([pt 2 0, pt 3 0].length ≤ spread3.length - 2) ∧
    pt 2 0 ∉ spread3 := by
  decide!

end GRANSAC.RANSAC

/-! ## A minimal sample without a slope -/

namespace GRANSAC.VPFloat

theorem sub_self_cases (x : VPFloat) : sub x x = fin 0 ∨ sub x x = nan := by
  cases x <;> simp [sub, neg, add]

theorem div_zero_not_finite (d : VPFloat) : isFinite (div d (fin 0)) = false := by
  cases d with
  | fin a =>
    simp only [div, if_true]
    split
    · rfl
    · split <;> rfl
  | pinf => simp [div, isFinite]
  | ninf => simp [div, isFinite]
  | nan => simp [div, isFinite]

theorem div_nan (d : VPFloat) : div d nan = nan := by
  cases d <;> rfl

theorem infTimes_not_finite (q : ℚ) (b : Bool) : isFinite (infTimes q b) = false := by
  unfold infTimes
  split
  · rfl
  · split <;> rfl

theorem mul_not_finite (a x : VPFloat) (h : isFinite a = false) :
    isFinite (mul a x) = false := by
  cases a <;> cases x <;>
    first
      | rfl
      | exact infTimes_not_finite _ _
      | simp [isFinite] at h

theorem add_not_finite (a x : VPFloat) (h : isFinite a = false) :
    isFinite (add a x) = false := by
  cases a <;> cases x <;>
    first
      | rfl
      | simp [isFinite] at h

theorem fabs_not_finite (a : VPFloat) (h : isFinite a = false) :
    isFinite (fabs a) = false := by
  cases a <;>
    first
      | rfl
      | simp [isFinite] at h

theorem sqrt_not_finite (f : ℚ → ℚ) (a : VPFloat) (h : isFinite a = false) :
    isFinite (sqrt f a) = false := by
  cases a <;>
    first
      | rfl
      | simp [isFinite] at h

theorem div_not_finite (a b : VPFloat) (ha : isFinite a = false) (hb : isFinite b = false) :
    div a b = nan := by
  cases a <;> cases b <;>
    first
      | rfl
      | simp [isFinite] at ha hb

end GRANSAC.VPFloat

namespace Line2DModel

/-- Two points with the same x: `Initialize` does not throw, and the distance of every
point to the model it leaves is NaN. -/
theorem Initialize_equal_x (f : ℚ → ℚ) (p1 p2 : Point2D) (hx : p1.x = p2.x) :
    ∃ m, Initialize f [.point2D p1, .point2D p2] = .ok m ∧
      ∀ q : Point2D, m.ComputeDistanceMeasure (.point2D q) = .ok VPFloat.nan := by
  refine ⟨_, rfl, ?_⟩
  intro q
  have hm : VPFloat.isFinite
      (VPFloat.div (VPFloat.sub p2.y p1.y) (VPFloat.sub p2.x p1.x)) = false := by
    rw [hx]
    rcases VPFloat.sub_self_cases p2.x with h | h
    · rw [h]; exact VPFloat.div_zero_not_finite _
    · rw [h, VPFloat.div_nan]; rfl
  simp only [ComputeDistanceMeasure, AbstractParameter.asPoint2D]
  rw [VPFloat.div_not_finite]
  · exact VPFloat.fabs_not_finite _ (VPFloat.add_not_finite _ _
      (VPFloat.add_not_finite _ _ (VPFloat.mul_not_finite _ _ hm)))
  · exact VPFloat.sqrt_not_finite _ _ (VPFloat.add_not_finite _ _
      (VPFloat.mul_not_finite _ _ hm))

/-- A model to which every distance is NaN has no inliers; on a batch of points that is
not empty its fraction is 0. -/
theorem Evaluate_all_nan (m : Line2DModel) (thr : VPFloat) (batch : List AbstractParameter)
    (hnan : ∀ q : Point2D, m.ComputeDistanceMeasure (.point2D q) = .ok VPFloat.nan)
    (hpts : ∀ p ∈ batch, ∃ q, p = AbstractParameter.point2D q) (hne : batch ≠ []) :
    m.Evaluate batch thr = .ok (VPFloat.fin 0, []) := by
  have hfilter : batch.filter (m.isInlier thr) = [] := by
    rw [List.filter_eq_nil_iff]
    intro p hp
    obtain ⟨q, rfl⟩ := hpts p hp
    simp [isInlier, hnan q, VPFloat.lt]
  rw [Evaluate_points m thr batch hpts, hfilter]
  have hlen : batch.length ≠ 0 := fun h => hne (List.length_eq_zero.mp h)
  rw [List.length_nil, VPFloat.div_ofNat _ _ hlen]
  simp

end Line2DModel

namespace GRANSAC.RANSAC

variable {E : Type}

/-- C10, as the code has it. For `RANSAC<Line2DModel, 2>` on `Point2D` observations, more
than two of them, with `m_MaxIterations` not negative: no iteration throws, every slot
is filled, and `Estimate` returns `true`; an iteration whose minimal sample is two points
with the same x (the same point twice, or a vertical pair) does not fail in the fit, it
is recorded with the inlier fraction 0 and no inliers. For any model class: when an
iteration below `m_MaxIterations` throws, from whatever state of the engines, `Estimate`
ends with an exception and returns nothing. -/
theorem degenerate_sample_scores_zero_and_a_throw_ends_Estimate (f : ℚ → ℚ)
    (S : Shuffler E) (self : RANSAC Line2DModel E) (Data : List AbstractParameter)
    (hpts : ∀ p ∈ Data, ∃ q, p = AbstractParameter.point2D q)
    (hlen : 2 < Data.length) (hiter : 0 ≤ self.m_MaxIterations) :
    (∃ s, Estimate (Line2DClass f) S 2 self Data = .ok (true, s)) ∧
    (∃ res e, trialsOf (Line2DClass f) S 2 self Data = .ok (res, e) ∧
      (res.length : Int) = self.m_MaxIterations) ∧
    (∀ i e, ∃ r e1, trial (Line2DClass f) S 2 self.m_Threshold Data i e = .ok (r, e1) ∧
      ∀ p1 p2 : Point2D, RandomSamples S 2 Data i e = [.point2D p1, .point2D p2] →
        p1.x = p2.x → r.InlierFraction = VPFloat.fin 0 ∧ r.Inliers = []) ∧
    (∀ (M : Type) (T : ModelClass M) (k : Nat) (s0 : RANSAC M E)
      (D : List AbstractParameter) (j : Nat),
      k < D.length → 0 ≤ s0.m_MaxIterations → j < s0.m_MaxIterations.toNat →
      (∀ e, ∃ x, trial T S k s0.m_Threshold D j e = .error x) →
      ∃ x, Estimate T S k s0 D = .error x) := by
  have hrun : ∀ i e, ∃ r, trial (Line2DClass f) S 2 self.m_Threshold Data i e = .ok r :=
    fun i e => Line2D_trial_ok f S _ Data i e hpts hlen
  obtain ⟨⟨res, e⟩, hres⟩ := trials_ok (Line2DClass f) S 2 self.m_Threshold Data hrun
    self.m_MaxIterations.toNat 0 self.m_RandEngines
  refine ⟨?_, ⟨res, e, hres, ?_⟩, ?_, ?_⟩
  · refine ⟨Reset (reduction res.length res
      { self with
        m_Data := Data
        m_SampledModels := res.map (fun r => r.Model)
        m_RandEngines := e }), ?_⟩
    have h1 : ¬ Data.length ≤ 2 := by omega
    have h2 : ¬ self.m_MaxIterations < 0 := by omega
    simp only [Estimate, trialsOf, h1, h2, if_false, hres]
  · rw [trials_length _ _ _ _ _ _ _ _ _ _ hres]
    exact Int.toNat_of_nonneg hiter
  · intro i e
    obtain ⟨⟨r, e1⟩, hr⟩ := hrun i e
    refine ⟨r, e1, hr, ?_⟩
    intro p1 p2 hsample hx
    obtain ⟨hc, hev⟩ := trial_inv (Line2DClass f) S 2 _ Data i e e1 r hr
    obtain ⟨m, hm, hnan⟩ := Line2DModel.Initialize_equal_x f p1 p2 hx
    rw [hsample] at hc
    simp only [Line2DClass] at hc hev
    rw [hm] at hc
    simp only [Except.ok.injEq] at hc
    have hperm := S.perm i e Data
    have hbatch : ∀ p ∈ RemainderSamples S 2 Data i e,
        ∃ q, p = AbstractParameter.point2D q :=
      fun p hp => hpts p (hperm.mem_iff.mp (List.mem_of_mem_drop hp))
    have hne : RemainderSamples S 2 Data i e ≠ [] := by
      intro h0
      have := RemainderSamples_length S 2 Data i e
      rw [h0, List.length_nil] at this
      omega
    rw [← hc, Line2DModel.Evaluate_all_nan m _ _ hnan hbatch hne] at hev
    simp only [Except.ok.injEq, Prod.mk.injEq] at hev
    exact ⟨hev.1.symm, hev.2.symm⟩
  · intro M T k s0 D j hk hit hj hthrow
    obtain ⟨x, hx⟩ := trials_error T S k s0.m_Threshold D s0.m_MaxIterations.toNat 0
      s0.m_RandEngines j hj (by intro e2; rw [Nat.zero_add]; exact hthrow e2)
    have h1 : ¬ D.length ≤ k := by omega
    have h2 : ¬ s0.m_MaxIterations < 0 := by omega
    exact ⟨x, by simp only [Estimate, trialsOf, h1, h2, if_false, hx]⟩

/-- C10, for a fresh `RANSAC<Line2DModel, 2>` after `Initialize(0.5, 2)` on the three
points (0,0), (10,0), (0,10): the second iteration draws the sample (0,10), (0,0), two
points with the same x; it is recorded with the fraction 0 and no inliers, and `Estimate`
returns `true`. -/
theorem degenerate_sample_scores_zero_and_a_throw_ends_Estimate_witness :
    (∃ s, Estimate (Line2DClass sqrtQ) rotShuffler 2 freshLine spread3 = .ok (true, s)) ∧
    RandomSamples rotShuffler 2 spread3 1 1 = [pt 0 10, pt 0 0] ∧
    ∃ r e1, trial (Line2DClass sqrtQ) rotShuffler 2 freshLine.m_Threshold spread3 1 1 =
        .ok (r, e1) ∧ r.InlierFraction = VPFloat.fin 0 ∧ r.Inliers = [] := by
  have h := degenerate_sample_scores_zero_and_a_throw_ends_Estimate sqrtQ rotShuffler
    freshLine spread3
    (by intro p hp
        simp only [spread3, List.mem_cons, List.mem_singleton, List.not_mem_nil,
          or_false] at hp
        rcases hp with rfl | rfl | rfl <;> exact ⟨_, rfl⟩)
    (by decide) (by decide)
  obtain ⟨r, e1, hr, hzero⟩ := h.2.2.1 1 1
  exact ⟨h.1, by decide, r, e1, hr,
    hzero { x := .fin 0, y := .fin 10 } { x := .fin 0, y := .fin 0 } (by decide) rfl⟩

/-- C10 fails as stated: a fit that fails ends the call. `RANSAC<Line2DModel, 3>` on four
points hands `Line2DModel` samples of three, and `RANSAC<Line2DModel, 2>` on data with an
observation that is not a `Point2D` hands it that observation in the first sample; in both
the exception of `Line2DModel::Initialize` is what `Estimate` ends with, no slot is
recorded and nothing is returned. -/
theorem a_failed_fit_ends_Estimate :
    Estimate (Line2DClass sqrtQ) rotShuffler 3 freshLine onLineY0 =
      .error .sampleSizeMismatch ∧
    Estimate (Line2DClass sqrtQ) rotShuffler 2 freshLine
      [pt 0 0, AbstractParameter.notPoint2D 7, pt 1 0, pt 2 0] =
      .error .inputTypeMismatch := by
  decide!

end GRANSAC.RANSAC

/-! ## `Line2DModel::Initialize` -/

namespace Line2DModel

/-- C11: `Line2DModel::Initialize`, which is all the constructor does, ends with the
sample-size exception exactly when the number of input parameters is not 2. A sample of
two `Point2D` observations is accepted, and a sample of size 2 is rejected only for
holding a parameter that is not a `Point2D`, with the type exception. -/
theorem Initialize_size_error_iff (sqrtFin : ℚ → ℚ) (InputParams : List AbstractParameter) :
    (Initialize sqrtFin InputParams = .error .sampleSizeMismatch ↔ InputParams.length ≠ 2) ∧
    ((Line2DClass sqrtFin).construct InputParams = Initialize sqrtFin InputParams) ∧
    (InputParams.length ≠ 2 → ∀ m, Initialize sqrtFin InputParams ≠ .ok m) ∧
    (∀ p1 p2 : Point2D, ∃ m,
      Initialize sqrtFin [.point2D p1, .point2D p2] = .ok m) ∧
    (InputParams.length = 2 →
      (∃ m, Initialize sqrtFin InputParams = .ok m) ∨
      (Initialize sqrtFin InputParams = .error .inputTypeMismatch ∧
        ∃ p ∈ InputParams, p.asPoint2D = none)) := by
  have hiff : Initialize sqrtFin InputParams = .error .sampleSizeMismatch ↔
      InputParams.length ≠ 2 := by
    match InputParams with
    | [] => simp [Initialize]
    | [_] => simp [Initialize]
    | [a, b] =>
      cases a <;> cases b <;> simp [Initialize, AbstractParameter.asPoint2D]
    | _ :: _ :: _ :: _ => simp [Initialize]
  refine ⟨hiff, rfl, ?_, fun p1 p2 => ⟨_, rfl⟩, ?_⟩
  · intro hne m hm
    rw [hiff.mpr hne] at hm
    cases hm
  · intro hlen
    match InputParams, hlen with
    | [a, b], _ =>
      cases a <;> cases b <;>
        simp [Initialize, AbstractParameter.asPoint2D]

end Line2DModel

namespace Line2DModel

/-- For two points with finite coordinates and different x, what `Initialize` leaves. -/
theorem Initialize_finite (sqrtFin : ℚ → ℚ) (x1 y1 x2 y2 : ℚ) (hx : x1 ≠ x2) :
    Initialize sqrtFin [pt x1 y1, pt x2 y2] =
      .ok { m_MinModelParams := [pt x1 y1, pt x2 y2]
            m_a := .fin ((y2 - y1) / (x2 - x1))
            m_b := .fin (-1)
            m_c := .fin (y1 - (y2 - y1) / (x2 - x1) * x1)
            m_DistDenominator :=
              .fin (sqrtFin ((y2 - y1) / (x2 - x1) * ((y2 - y1) / (x2 - x1)) + (-1) * (-1)))
            m_m := .fin ((y2 - y1) / (x2 - x1))
            m_d := .fin (y1 - (y2 - y1) / (x2 - x1) * x1) } := by
  have hdx : x2 + -x1 ≠ 0 := by
    intro h
    apply hx
    linarith
  have hsq : ¬ ((y2 + -y1) / (x2 + -x1) * ((y2 + -y1) / (x2 + -x1)) + (-1) * (-1) < 0) := by
    have := mul_self_nonneg ((y2 + -y1) / (x2 + -x1))
    intro h
    linarith
  simp only [Initialize, pt, AbstractParameter.asPoint2D, VPFloat.sub, VPFloat.neg,
    VPFloat.add, VPFloat.mul, VPFloat.div, VPFloat.sqrt, hdx, hsq, if_false,
    sub_eq_add_neg]

/-- The distance of a point with finite coordinates to a model with finite members and a
denominator other than 0. -/
theorem ComputeDistanceMeasure_finite (self : Line2DModel) (a b c den qx qy : ℚ)
    (ha : self.m_a = .fin a) (hb : self.m_b = .fin b) (hc : self.m_c = .fin c)
    (hden : self.m_DistDenominator = .fin den) (hne : den ≠ 0) :
    self.ComputeDistanceMeasure (pt qx qy) = .ok (.fin (|a * qx + b * qy + c| / den)) := by
  simp only [ComputeDistanceMeasure, pt, AbstractParameter.asPoint2D, ha, hb, hc, hden,
    VPFloat.mul, VPFloat.add, VPFloat.fabs, VPFloat.div, hne, if_false]

/-- The arithmetic `FloatOps.rational` is the one of `Line2DModel.Initialize` and
`Line2DModel.ComputeDistanceMeasure`. -/
theorem rational_is_the_exact_arithmetic (sqrtFin : ℚ → ℚ) :
    (FloatOps.rational sqrtFin).Initialize = Initialize sqrtFin ∧
    (FloatOps.rational sqrtFin).ComputeDistanceMeasure = ComputeDistanceMeasure :=
  ⟨rfl, rfl⟩

/-- Overflow keeps a value that is NaN or at least `c`, for `c` within the range. -/
theorem overflow_ge (B c : ℚ) (hc : -B ≤ c) (v : VPFloat)
    (h : v = VPFloat.nan ∨ VPFloat.le (VPFloat.fin c) v = true) :
    VPFloat.overflow B v = VPFloat.nan ∨
      VPFloat.le (VPFloat.fin c) (VPFloat.overflow B v) = true := by
  cases v with
  | fin q =>
    rcases h with h | h
    · cases h
    · simp only [VPFloat.le, decide_eq_true_eq] at h
      simp only [VPFloat.overflow]
      split
      · exact Or.inr rfl
      · split
        · exfalso; linarith
        · right; simpa [VPFloat.le] using h
  | pinf => exact Or.inr rfl
  | ninf =>
    rcases h with h | h
    · cases h
    · simp [VPFloat.le] at h
  | nan => exact Or.inl rfl

/-- The exact arithmetic has the properties `FloatOps.IEEE`, for a square root that is at
least 1 on arguments from 1 on. -/
theorem rational_IEEE (sqrtFin : ℚ → ℚ) (hsqrt : ∀ x : ℚ, 1 ≤ x → 1 ≤ sqrtFin x) :
    (FloatOps.rational sqrtFin).IEEE where
  mul_self := by
    intro x
    cases x with
    | fin q =>
      right
      simpa [FloatOps.rational, VPFloat.mul, VPFloat.le] using mul_self_nonneg q
    | pinf => exact Or.inr rfl
    | ninf => exact Or.inr rfl
    | nan => exact Or.inl rfl
  mul_neg_one := by
    simp [FloatOps.rational, VPFloat.mul]
  add_one := by
    intro u h
    cases u with
    | fin q =>
      rcases h with h | h
      · cases h
      · simp only [VPFloat.le, decide_eq_true_eq] at h
        right
        simpa [FloatOps.rational, VPFloat.add, VPFloat.le] using h
    | pinf => exact Or.inr rfl
    | ninf =>
      rcases h with h | h
      · cases h
      · simp [VPFloat.le] at h
    | nan => exact Or.inl rfl
  sqrt_ge_one := by
    intro v h
    cases v with
    | fin q =>
      rcases h with h | h
      · cases h
      · simp only [VPFloat.le, decide_eq_true_eq] at h
        have hq : ¬ q < 0 := by linarith
        right
        simpa [FloatOps.rational, VPFloat.sqrt, hq, VPFloat.le] using hsqrt q h
    | pinf => exact Or.inr rfl
    | ninf =>
      rcases h with h | h
      · cases h
      · simp [VPFloat.le] at h
    | nan => exact Or.inl rfl
  fabs_nonneg := by
    intro v
    cases v with
    | fin q =>
      right
      simp [FloatOps.rational, VPFloat.fabs, VPFloat.le]
    | pinf => exact Or.inr rfl
    | ninf => exact Or.inr rfl
    | nan => exact Or.inl rfl
  div_nonneg := by
    intro n d hn hd
    cases n with
    | fin a =>
      rcases hn with hn | hn
      · cases hn
      · simp only [VPFloat.le, decide_eq_true_eq] at hn
        cases d with
        | fin b =>
          rcases hd with hd | hd
          · cases hd
          · simp only [VPFloat.le, decide_eq_true_eq] at hd
            have hb : b ≠ 0 := by
              intro h0
              rw [h0] at hd
              linarith
            right
            have hdiv : 0 ≤ a / b := div_nonneg hn (by linarith)
            simpa [FloatOps.rational, VPFloat.div, hb, VPFloat.le] using hdiv
        | pinf =>
          right
          simp [FloatOps.rational, VPFloat.div, VPFloat.le]
        | ninf =>
          rcases hd with hd | hd
          · cases hd
          · simp [VPFloat.le] at hd
        | nan => exact Or.inl rfl
    | pinf =>
      cases d with
      | fin b =>
        rcases hd with hd | hd
        · cases hd
        · simp only [VPFloat.le, decide_eq_true_eq] at hd
          have hb : 0 ≤ b := by linarith
          right
          simp [FloatOps.rational, VPFloat.div, hb, VPFloat.le]
      | pinf => exact Or.inl rfl
      | ninf => exact Or.inl rfl
      | nan => exact Or.inl rfl
    | ninf =>
      rcases hn with hn | hn
      · cases hn
      · simp [VPFloat.le] at hn
    | nan => cases d <;> exact Or.inl rfl

/-- The arithmetic with a finite range of at least `[-1, 1]` has the properties
`FloatOps.IEEE`, for a square root that is at least 1 on arguments from 1 on. -/
theorem withRange_IEEE (B : ℚ) (hB : 1 ≤ B) (sqrtFin : ℚ → ℚ)
    (hsqrt : ∀ x : ℚ, 1 ≤ x → 1 ≤ sqrtFin x) : (FloatOps.withRange B sqrtFin).IEEE where
  mul_self := fun x =>
    overflow_ge B 0 (by linarith) _ ((rational_IEEE sqrtFin hsqrt).mul_self x)
  mul_neg_one := by
    have h1 : ¬ B < 1 := by linarith
    have h2 : ¬ (1 : ℚ) < -B := by linarith
    simp [FloatOps.withRange, VPFloat.mul, VPFloat.overflow, h1, h2]
  add_one := fun u h =>
    overflow_ge B 1 (by linarith) _ ((rational_IEEE sqrtFin hsqrt).add_one u h)
  sqrt_ge_one := (rational_IEEE sqrtFin hsqrt).sqrt_ge_one
  fabs_nonneg := (rational_IEEE sqrtFin hsqrt).fabs_nonneg
  div_nonneg := fun n d hn hd =>
    overflow_ge B 0 (by linarith) _ ((rational_IEEE sqrtFin hsqrt).div_nonneg n d hn hd)

/-- In the arithmetic with the range of binary64 the sample (0, -2^1023), (1, 2^1023), of
finite coordinates and different x, gives a model with slope +infinity and intercept
NaN, and the distance of (3,0) to it is NaN: the difference of the y overflows. -/
theorem overflow_gives_nan_distance :
    (FloatOps.withRange binary64Max sqrtQ).Initialize
      [pt 0 (-((2 ^ 1023 : ℕ) : ℚ)), pt 1 ((2 ^ 1023 : ℕ) : ℚ)] = .ok overflowModel ∧
    (FloatOps.withRange binary64Max sqrtQ).ComputeDistanceMeasure overflowModel (pt 3 0) =
      .ok VPFloat.nan := by
  decide!

/-- C16, as the code has it, in every arithmetic with the properties `FloatOps.IEEE`,
that of binary64 with its rounding and overflow included: for every model `Initialize`
returns and every `Point2D`, the members are a = slope, b = -1, c = intercept, the cached
denominator is sqrt(a * a + b * b) and is NaN or at least 1 (+infinity included), so
never 0, and `ComputeDistanceMeasure` returns
fabs(a * x + b * y + c) / denominator, which is NaN or at least 0 (+infinity included).
`Initialize` returns a model for every two `Point2D`. -/
theorem distance_and_denominator_are_nan_or_bounded_below (F : FloatOps) (hF : F.IEEE)
    (InputParams : List AbstractParameter) (m : Line2DModel)
    (hfit : F.Initialize InputParams = .ok m) (q : Point2D) :
    m.m_a = m.m_m ∧ m.m_b = VPFloat.fin (-1) ∧ m.m_c = m.m_d ∧
    m.m_DistDenominator = F.sqrt (F.add (F.mul m.m_a m.m_a) (F.mul m.m_b m.m_b)) ∧
    (m.m_DistDenominator = VPFloat.nan ∨
      VPFloat.le (VPFloat.fin 1) m.m_DistDenominator = true) ∧
    m.m_DistDenominator ≠ VPFloat.fin 0 ∧
    (∃ dist, F.ComputeDistanceMeasure m (.point2D q) = .ok dist ∧
      dist = F.div (F.fabs (F.add (F.add (F.mul m.m_a q.x) (F.mul m.m_b q.y)) m.m_c))
        m.m_DistDenominator ∧
      (dist = VPFloat.nan ∨ VPFloat.le (VPFloat.fin 0) dist = true)) ∧
    (∀ p1 p2 : Point2D, ∃ m2, F.Initialize [.point2D p1, .point2D p2] = .ok m2) := by
  have hshape : m.m_a = m.m_m ∧ m.m_b = VPFloat.fin (-1) ∧ m.m_c = m.m_d ∧
      m.m_DistDenominator = F.sqrt (F.add (F.mul m.m_a m.m_a) (F.mul m.m_b m.m_b)) := by
    unfold FloatOps.Initialize at hfit
    split at hfit
    · split at hfit
      · simp only [Except.ok.injEq] at hfit
        rw [← hfit]
        exact ⟨rfl, rfl, rfl, rfl⟩
      · cases hfit
    · cases hfit
  obtain ⟨ha, hb, hc, hden⟩ := hshape
  have hge : m.m_DistDenominator = VPFloat.nan ∨
      VPFloat.le (VPFloat.fin 1) m.m_DistDenominator = true := by
    rw [hden, hb, hF.mul_neg_one]
    exact hF.sqrt_ge_one _ (hF.add_one _ (hF.mul_self _))
  refine ⟨ha, hb, hc, hden, hge, ?_, ⟨_, rfl, rfl, ?_⟩, fun p1 p2 => ⟨_, rfl⟩⟩
  · intro h0
    rw [h0] at hge
    rcases hge with h | h
    · cases h
    · simp only [VPFloat.le, decide_eq_true_eq] at h
      linarith
  · exact hF.div_nonneg _ _ (hF.fabs_nonneg _) hge

/-- C16, in the arithmetic with the range of binary64 and the square root `sqrtQ`, for
the model fitted from (0, -2^1023), (1, 2^1023) and the point (3,0): the denominator is
NaN or at least 1 and the distance is NaN or at least 0. -/
theorem distance_and_denominator_are_nan_or_bounded_below_witness :
    (FloatOps.withRange binary64Max sqrtQ).Initialize
      [pt 0 (-((2 ^ 1023 : ℕ) : ℚ)), pt 1 ((2 ^ 1023 : ℕ) : ℚ)] = .ok overflowModel ∧
    (overflowModel.m_DistDenominator = VPFloat.nan ∨
      VPFloat.le (VPFloat.fin 1) overflowModel.m_DistDenominator = true) ∧
    ∃ dist, (FloatOps.withRange binary64Max sqrtQ).ComputeDistanceMeasure overflowModel
        (pt 3 0) = .ok dist ∧
      (dist = VPFloat.nan ∨ VPFloat.le (VPFloat.fin 0) dist = true) :=
  have hfit : (FloatOps.withRange binary64Max sqrtQ).Initialize
      [pt 0 (-((2 ^ 1023 : ℕ) : ℚ)), pt 1 ((2 ^ 1023 : ℕ) : ℚ)] = .ok overflowModel := by
    decide!
  have h := distance_and_denominator_are_nan_or_bounded_below
    (FloatOps.withRange binary64Max sqrtQ)
    (withRange_IEEE binary64Max (by decide!) sqrtQ one_le_sqrtQ) _ overflowModel hfit
    { x := .fin 3, y := .fin 0 }
  ⟨hfit, h.2.2.2.2.1, h.2.2.2.2.2.2.1.imp (fun _ hd => ⟨hd.1, hd.2.2⟩)⟩

/-- C16 fails as stated: the model fitted from the coincident points (1,1), (1,1) has
the cached denominator NaN, which is not at least 1, and the distance of (0,0) to it is
NaN, which is not at least 0. -/
theorem degenerate_model_distance_is_nan :
    Initialize sqrtQ [pt 1 1, pt 1 1] = .ok coincidentModel ∧
    coincidentModel.m_DistDenominator = VPFloat.nan ∧
    VPFloat.le (.fin 1) coincidentModel.m_DistDenominator = false ∧
    coincidentModel.ComputeDistanceMeasure (pt 0 0) = .ok VPFloat.nan ∧
    VPFloat.le (.fin 0) VPFloat.nan = false := by
  decide!

/-- C18: for two points with finite coordinates and different x, with a square root that
is at least 1 on arguments from 1 on (so that the denominator is not 0): the fitted
slope is (y2 - y1) / (x2 - x1), the fitted intercept is y1 - slope * x1, and the distance
of each of the two sample points to the model is 0. If both points lie on y = s x + d,
the fitted slope is s and the fitted intercept is d. -/
theorem fitted_line_passes_through_its_sample (sqrtFin : ℚ → ℚ)
    (hsqrt : ∀ x : ℚ, 1 ≤ x → 1 ≤ sqrtFin x) (x1 y1 x2 y2 : ℚ) (hx : x1 ≠ x2) :
    ∃ m, Initialize sqrtFin [pt x1 y1, pt x2 y2] = .ok m ∧
      m.m_m = .fin ((y2 - y1) / (x2 - x1)) ∧
      m.m_d = .fin (y1 - (y2 - y1) / (x2 - x1) * x1) ∧
      m.ComputeDistanceMeasure (pt x1 y1) = .ok (.fin 0) ∧
      m.ComputeDistanceMeasure (pt x2 y2) = .ok (.fin 0) ∧
      ∀ s d : ℚ, y1 = s * x1 + d → y2 = s * x2 + d →
        m.m_m = .fin s ∧ m.m_d = .fin d := by
  have hdx : x2 - x1 ≠ 0 := sub_ne_zero.mpr (Ne.symm hx)
  have hge : (1 : ℚ) ≤ (y2 - y1) / (x2 - x1) * ((y2 - y1) / (x2 - x1)) + (-1) * (-1) := by
    have := mul_self_nonneg ((y2 - y1) / (x2 - x1))
    linarith
  have hden := hsqrt _ hge
  have hne : sqrtFin ((y2 - y1) / (x2 - x1) * ((y2 - y1) / (x2 - x1)) + (-1) * (-1)) ≠ 0 := by
    intro h
    rw [h] at hden
    linarith
  refine ⟨_, Initialize_finite sqrtFin x1 y1 x2 y2 hx, rfl, rfl, ?_, ?_, ?_⟩
  · rw [ComputeDistanceMeasure_finite _ _ _ _ _ x1 y1 rfl rfl rfl rfl hne]
    have h0 : (y2 - y1) / (x2 - x1) * x1 + (-1) * y1 + (y1 - (y2 - y1) / (x2 - x1) * x1) = 0 := by
      ring
    rw [h0]
    simp
  · rw [ComputeDistanceMeasure_finite _ _ _ _ _ x2 y2 rfl rfl rfl rfl hne]
    have h0 : (y2 - y1) / (x2 - x1) * x2 + (-1) * y2 + (y1 - (y2 - y1) / (x2 - x1) * x1) = 0 := by
      field_simp
      ring
    rw [h0]
    simp
  · intro s d h1 h2
    have hs : (y2 - y1) / (x2 - x1) = s := by
      rw [div_eq_iff hdx, h1, h2]
      ring
    refine ⟨by rw [hs], ?_⟩
    show VPFloat.fin (y1 - (y2 - y1) / (x2 - x1) * x1) = VPFloat.fin d
    rw [hs, h1]
    congr 1
    ring

/-- C18, for the points (0,1) and (2,5) of the line y = 2x + 1, fitted with `sqrtQ`: the
slope is 2, the intercept is 1, and both points are at distance 0. -/
theorem fitted_line_passes_through_its_sample_witness :
    ∃ m, Initialize sqrtQ [pt 0 1, pt 2 5] = .ok m ∧
      m.m_m = .fin 2 ∧ m.m_d = .fin 1 ∧
      m.ComputeDistanceMeasure (pt 0 1) = .ok (.fin 0) ∧
      m.ComputeDistanceMeasure (pt 2 5) = .ok (.fin 0) := by
  obtain ⟨m, h1, -, -, h4, h5, h6⟩ :=
    fitted_line_passes_through_its_sample sqrtQ one_le_sqrtQ 0 1 2 5 (by norm_num)
  obtain ⟨h7, h8⟩ := h6 2 1 (by norm_num) (by norm_num)
  exact ⟨m, h1, h7, h8, h4, h5⟩

end Line2DModel

namespace GRANSAC.VPFloat

theorem vlt_of_vlt_of_vle {d t1 t2 : VPFloat} (h1 : lt d t1 = true) (h2 : le t1 t2 = true) :
    lt d t2 = true := by
  cases d <;> cases t1 <;> cases t2 <;> simp [lt, le] at h1 h2 ⊢
  exact lt_of_lt_of_le h1 h2

end GRANSAC.VPFloat

namespace Line2DModel

theorem filter_sublist_of_imp {α : Type} (p q : α → Bool) (h : ∀ a, p a = true → q a = true) :
    ∀ l : List α, List.Sublist (l.filter p) (l.filter q) := by
  intro l
  induction l with
  | nil => exact List.Sublist.slnil
  | cons a l ih =>
    by_cases hp : p a = true
    · rw [List.filter_cons_of_pos hp, List.filter_cons_of_pos (h a hp)]
      exact ih.cons₂ a
    · rw [List.filter_cons_of_neg hp]
      by_cases hq : q a = true
      · rw [List.filter_cons_of_pos hq]
        exact ih.cons a
      · rw [List.filter_cons_of_neg hq]
        exact ih

/-- C19, as the code has it: for every `Line2DModel`, every batch of `Point2D`
observations and thresholds `t1 <= t2`, `Evaluate` returns for both, the inlier list for
`t1` is a sub-sequence of the inlier list for `t2`, and for a batch that is not empty
the fraction for `t1` is `<=` the fraction for `t2`. For the empty batch both fractions
are NaN, and `NaN <= NaN` does not hold. -/
theorem Evaluate_monotone_in_threshold (self : Line2DModel) (batch : List AbstractParameter)
    (t1 t2 : VPFloat) (hbatch : ∀ p ∈ batch, ∃ q, p = AbstractParameter.point2D q)
    (hle : VPFloat.le t1 t2 = true) :
    ∃ f1 i1 f2 i2, self.Evaluate batch t1 = .ok (f1, i1) ∧
      self.Evaluate batch t2 = .ok (f2, i2) ∧
      List.Sublist i1 i2 ∧ i1.length ≤ i2.length ∧
      (batch ≠ [] → VPFloat.le f1 f2 = true) ∧
      (batch = [] → f1 = VPFloat.nan ∧ f2 = VPFloat.nan ∧ VPFloat.le f1 f2 = false) := by
  have hsub : List.Sublist (batch.filter (self.isInlier t1)) (batch.filter (self.isInlier t2)) := by
    apply filter_sublist_of_imp
    intro p hp
    rw [isInlier_iff] at hp ⊢
    obtain ⟨d, hd, hlt⟩ := hp
    exact ⟨d, hd, VPFloat.vlt_of_vlt_of_vle hlt hle⟩
  refine ⟨_, _, _, _, Evaluate_points self t1 batch hbatch,
    Evaluate_points self t2 batch hbatch, hsub, hsub.length_le, ?_, ?_⟩
  · intro hne
    have hlen : batch.length ≠ 0 := fun h => hne (List.length_eq_zero.mp h)
    have hpos : (0 : ℚ) < (batch.length : ℚ) := by
      exact_mod_cast Nat.pos_of_ne_zero hlen
    rw [VPFloat.div_ofNat _ _ hlen, VPFloat.div_ofNat _ _ hlen]
    simp only [VPFloat.le, decide_eq_true_eq]
    apply div_le_div_of_nonneg_right _ hpos.le
    exact_mod_cast hsub.length_le
  · rintro rfl
    exact ⟨VPFloat.div_ofNat_zero, VPFloat.div_ofNat_zero, rfl⟩

/-- C19, at the line y = 0, the batch (2,0), (5,3), (7,1/2), (-1,1/4) and the thresholds
1/2 and 1: the inliers (2,0), (-1,1/4) for 1/2 are a sub-sequence of the inliers
(2,0), (7,1/2), (-1,1/4) for 1, and the fraction 2/4 is `<=` the fraction 3/4. -/
theorem Evaluate_monotone_in_threshold_witness :
    ∃ f1 i1 f2 i2,
      lineY0.Evaluate [pt 2 0, pt 5 3, pt 7 (1 / 2), pt (-1) (1 / 4)] (.fin (1 / 2)) =
        .ok (f1, i1) ∧
      lineY0.Evaluate [pt 2 0, pt 5 3, pt 7 (1 / 2), pt (-1) (1 / 4)] (.fin 1) =
        .ok (f2, i2) ∧
      List.Sublist i1 i2 ∧ VPFloat.le f1 f2 = true ∧
      i1 = [pt 2 0, pt (-1) (1 / 4)] ∧ i2 = [pt 2 0, pt 7 (1 / 2), pt (-1) (1 / 4)] := by
  obtain ⟨f1, i1, f2, i2, h1, h2, h3, -, h5, -⟩ :=
    Evaluate_monotone_in_threshold lineY0
      [pt 2 0, pt 5 3, pt 7 (1 / 2), pt (-1) (1 / 4)] (.fin (1 / 2)) (.fin 1)
      (by intro p hp; simp only [List.mem_cons, List.mem_singleton, List.not_mem_nil,
            or_false] at hp
          rcases hp with rfl | rfl | rfl | rfl <;> exact ⟨_, rfl⟩)
      (by decide!)
  have e1 : lineY0.Evaluate [pt 2 0, pt 5 3, pt 7 (1 / 2), pt (-1) (1 / 4)] (.fin (1 / 2)) =
      .ok (.fin (1 / 2), [pt 2 0, pt (-1) (1 / 4)]) := by decide!
  have e2 : lineY0.Evaluate [pt 2 0, pt 5 3, pt 7 (1 / 2), pt (-1) (1 / 4)] (.fin 1) =
      .ok (.fin (3 / 4), [pt 2 0, pt 7 (1 / 2), pt (-1) (1 / 4)]) := by decide!
  have g1 := h1.symm.trans e1
  have g2 := h2.symm.trans e2
  simp only [Except.ok.injEq, Prod.mk.injEq] at g1 g2
  exact ⟨f1, i1, f2, i2, h1, h2, h3, h5 (by simp), g1.2, g2.2⟩

/-- C19 fails as stated at the empty batch: for the thresholds 1/2 <= 1 the line y = 0
returns the fraction NaN both times, and `NaN <= NaN` is false. -/
theorem Evaluate_empty_batch_fractions_not_ordered :
    VPFloat.le (.fin (1 / 2)) (.fin 1) = true ∧
    lineY0.Evaluate [] (.fin (1 / 2)) = .ok (.nan, []) ∧
    lineY0.Evaluate [] (.fin 1) = .ok (.nan, []) ∧
    VPFloat.le .nan .nan = false := by
  decide!

/-- C20: for every `Line2DModel`, every threshold and two batches that are permutations
of each other, `Evaluate` either returns for both, the same fraction and inlier lists
that are permutations of each other, or throws for both (a batch with a parameter that
is not a `Point2D`); on batches of `Point2D` observations it returns. Hence two
iterations of the parallel loop that draw the same minimal sample record the same model
and the same inlier fraction, and inliers that are permutations of each other, however
the two shuffles ordered the remainder. -/
theorem Evaluate_invariant_under_reordering (self : Line2DModel)
    (batch1 batch2 : List AbstractParameter) (Threshold : VPFloat)
    (hperm : List.Perm batch1 batch2) :
    ((∃ f i1 i2, self.Evaluate batch1 Threshold = .ok (f, i1) ∧
        self.Evaluate batch2 Threshold = .ok (f, i2) ∧ List.Perm i1 i2) ∨
      (self.Evaluate batch1 Threshold = .error .distanceTypeMismatch ∧
        self.Evaluate batch2 Threshold = .error .distanceTypeMismatch)) ∧
    ((∀ p ∈ batch1, ∃ q, p = AbstractParameter.point2D q) →
      ∃ f i1 i2, self.Evaluate batch1 Threshold = .ok (f, i1) ∧
        self.Evaluate batch2 Threshold = .ok (f, i2) ∧ List.Perm i1 i2) ∧
    (∀ (E : Type) (sqrtFin : ℚ → ℚ) (S S2 : Shuffler E) (k : Nat)
      (Data : List AbstractParameter) (i i2 : Nat) (e e2 e1 e3 : E)
      (r r2 : TrialResult Line2DModel),
      RANSAC.trial (Line2DClass sqrtFin) S k Threshold Data i e = .ok (r, e1) →
      RANSAC.trial (Line2DClass sqrtFin) S2 k Threshold Data i2 e2 = .ok (r2, e3) →
      RANSAC.RandomSamples S k Data i e = RANSAC.RandomSamples S2 k Data i2 e2 →
      List.Perm (RANSAC.RemainderSamples S k Data i e)
        (RANSAC.RemainderSamples S2 k Data i2 e2) ∧
      r.Model = r2.Model ∧ r.InlierFraction = r2.InlierFraction ∧
      List.Perm r.Inliers r2.Inliers) := by
  have hok : ∀ (m : Line2DModel) (b1 b2 : List AbstractParameter), List.Perm b1 b2 →
      (∀ p ∈ b1, ∃ q, p = AbstractParameter.point2D q) →
      ∃ f i1 i2, m.Evaluate b1 Threshold = .ok (f, i1) ∧
        m.Evaluate b2 Threshold = .ok (f, i2) ∧ List.Perm i1 i2 := by
    intro m b1 b2 hp h1
    have h2 : ∀ p ∈ b2, ∃ q, p = AbstractParameter.point2D q :=
      fun p hp2 => h1 p (hp.mem_iff.mpr hp2)
    refine ⟨_, _, _, Evaluate_points m Threshold b1 h1, ?_, hp.filter _⟩
    rw [Evaluate_points m Threshold b2 h2, (hp.filter _).length_eq, hp.length_eq]
  refine ⟨?_, hok self batch1 batch2 hperm, ?_⟩
  · by_cases h1 : ∀ p ∈ batch1, ∃ q, p = AbstractParameter.point2D q
    · exact Or.inl (hok self batch1 batch2 hperm h1)
    · right
      have hnp : ∃ p ∈ batch1, p.asPoint2D = none := by
        by_contra hcon
        apply h1
        intro p hpm
        cases p with
        | point2D q => exact ⟨q, rfl⟩
        | notPoint2D id => exact absurd ⟨_, hpm, rfl⟩ hcon
      obtain ⟨p, hp, hpn⟩ := hnp
      exact ⟨Evaluate_notPoint self Threshold batch1 ⟨p, hp, hpn⟩,
        Evaluate_notPoint self Threshold batch2 ⟨p, hperm.mem_iff.mp hp, hpn⟩⟩
  · intro E sqrtFin S S2 k Data i i2 e e2 e1 e3 r r2 hr hr2 hsample
    obtain ⟨hc, hev⟩ := RANSAC.trial_inv (Line2DClass sqrtFin) S k Threshold Data i e e1 r hr
    obtain ⟨hc2, hev2⟩ :=
      RANSAC.trial_inv (Line2DClass sqrtFin) S2 k Threshold Data i2 e2 e3 r2 hr2
    have hrem : List.Perm (RANSAC.RemainderSamples S k Data i e)
        (RANSAC.RemainderSamples S2 k Data i2 e2) := by
      have p1 := RANSAC.Random_append_Remainder S k Data i e
      have p2 := RANSAC.Random_append_Remainder S2 k Data i2 e2
      rw [hsample] at p1
      exact (List.perm_append_left_iff _).mp (p1.trans p2.symm)
    have hmodel : r.Model = r2.Model := by
      rw [hsample, hc2] at hc
      simp only [Except.ok.injEq] at hc
      exact hc.symm
    simp only [Line2DClass] at hev hev2
    rw [← hmodel] at hev2
    obtain ⟨hi1, hf1⟩ := Evaluate_ok_inv _ _ _ _ _ hev
    obtain ⟨hi2, hf2⟩ := Evaluate_ok_inv _ _ _ _ _ hev2
    have hinl : List.Perm r.Inliers r2.Inliers := by
      rw [hi1, hi2]
      exact hrem.filter _
    refine ⟨hrem, hmodel, ?_, hinl⟩
    rw [hf1, hf2, hinl.length_eq, hrem.length_eq]

/-- C20, at the line y = 0, threshold 1/2 and the batch (2,0), (5,3), (-1,1/4) in two
orders: the fraction is 2/3 both times and the inlier lists are (2,0), (-1,1/4) and
(-1,1/4), (2,0). -/
theorem Evaluate_invariant_under_reordering_witness :
    ∃ f i1 i2,
      lineY0.Evaluate [pt 2 0, pt 5 3, pt (-1) (1 / 4)] (.fin (1 / 2)) = .ok (f, i1) ∧
      lineY0.Evaluate [pt (-1) (1 / 4), pt 5 3, pt 2 0] (.fin (1 / 2)) = .ok (f, i2) ∧
      List.Perm i1 i2 :=
  (Evaluate_invariant_under_reordering lineY0 [pt 2 0, pt 5 3, pt (-1) (1 / 4)]
    [pt (-1) (1 / 4), pt 5 3, pt 2 0] (.fin (1 / 2)) (by decide!)).2.1
    (by intro p hp; simp only [List.mem_cons, List.mem_singleton, List.not_mem_nil,
          or_false] at hp
        rcases hp with rfl | rfl | rfl <;> exact ⟨_, rfl⟩)

end Line2DModel

/-! ## `RANSAC::Initialize`, `RANSAC::Reset` and the estimators a caller can hold -/

namespace GRANSAC.RANSAC

variable {M E : Type}

/-- A sequence of calls of `Initialize` amounts to the last of them. -/
theorem Initialize_foldl (calls : List (VPFloat × Int)) (self : RANSAC M E) :
    calls.foldl (fun s c => s.Initialize c.1 c.2) self =
      match calls.getLast? with
      | none => self
      | some c => self.Initialize c.1 c.2 := by
  induction calls generalizing self with
  | nil => rfl
  | cons c l ih =>
    rw [List.foldl_cons, ih]
    cases l with
    | nil => rfl
    | cons d l2 =>
      rw [List.getLast?_cons_cons]
      cases h : (d :: l2).getLast? with
      | none => simp at h
      | some c2 => rfl

/-- C15: `Initialize(Threshold, MaxIterations)` stores the given threshold and iteration
count (1000 when the count is left out) and leaves every other member as it was, the
best model and the best inliers among them. Of two calls in a row the second decides;
after any sequence of calls the configuration is that of the last one, and the best
model and the best inliers are still the ones stored before. -/
theorem Initialize_stores_the_configuration_only (self : RANSAC M E)
    (Threshold : VPFloat) (MaxIterations : Int) :
    (self.Initialize Threshold MaxIterations).m_Threshold = Threshold ∧
    (self.Initialize Threshold MaxIterations).m_MaxIterations = MaxIterations ∧
    self.Initialize Threshold = self.Initialize Threshold 1000 ∧
    (self.Initialize Threshold MaxIterations).GetBestModel = self.GetBestModel ∧
    (self.Initialize Threshold MaxIterations).GetBestInliers = self.GetBestInliers ∧
    (self.Initialize Threshold MaxIterations).m_Data = self.m_Data ∧
    (self.Initialize Threshold MaxIterations).m_SampledModels = self.m_SampledModels ∧
    (self.Initialize Threshold MaxIterations).m_BestModelScore = self.m_BestModelScore ∧
    (self.Initialize Threshold MaxIterations).m_BestModelIdx = self.m_BestModelIdx ∧
    (self.Initialize Threshold MaxIterations).m_RandEngines = self.m_RandEngines ∧
    (∀ (t2 : VPFloat) (i2 : Int),
      (self.Initialize Threshold MaxIterations).Initialize t2 i2 = self.Initialize t2 i2) ∧
    (∀ (calls : List (VPFloat × Int)),
      (calls.foldl (fun s c => s.Initialize c.1 c.2) self).GetBestModel =
        self.GetBestModel ∧
      (calls.foldl (fun s c => s.Initialize c.1 c.2) self).GetBestInliers =
        self.GetBestInliers ∧
      ∀ c, calls.getLast? = some c →
        calls.foldl (fun s c => s.Initialize c.1 c.2) self = self.Initialize c.1 c.2) := by
  refine ⟨rfl, rfl, rfl, rfl, rfl, rfl, rfl, rfl, rfl, rfl, fun _ _ => rfl, ?_⟩
  intro calls
  rw [Initialize_foldl]
  cases h : calls.getLast? with
  | none => exact ⟨rfl, rfl, by simp⟩
  | some c =>
    refine ⟨rfl, rfl, ?_⟩
    intro c2 hc2
    simp only [Option.some.injEq] at hc2
    rw [hc2]

/-- C13, as the code has it: `Initialize` rejects nothing and has no failure result; it
stores any threshold and any iteration count, non-positive ones included. A later
`Estimate` on more than `t_NumParams` observations runs with them: with the iteration
count 0 it returns `true` with the best result untouched, with a negative iteration count
it ends with the exception of `std::vector<VPFloat>(m_MaxIterations)`, and with a
non-negative count and any threshold it returns `true` when no iteration throws. -/
theorem Initialize_accepts_every_configuration (T : ModelClass M) (S : Shuffler E)
    (t_NumParams : Nat) (self : RANSAC M E) (Threshold : VPFloat) (MaxIterations : Int)
    (Data : List AbstractParameter) (hlen : t_NumParams < Data.length) :
    (self.Initialize Threshold MaxIterations).m_Threshold = Threshold ∧
    (self.Initialize Threshold MaxIterations).m_MaxIterations = MaxIterations ∧
    (MaxIterations = 0 →
      Estimate T S t_NumParams (self.Initialize Threshold MaxIterations) Data =
        .ok (true, Reset (self.Initialize Threshold MaxIterations))) ∧
    (MaxIterations < 0 →
      Estimate T S t_NumParams (self.Initialize Threshold MaxIterations) Data =
        .error .lengthError) ∧
    (0 ≤ MaxIterations →
      (∀ i e, ∃ r, trial T S t_NumParams Threshold Data i e = .ok r) →
      ∃ s, Estimate T S t_NumParams (self.Initialize Threshold MaxIterations) Data =
        .ok (true, s)) := by
  have h1 : ¬ Data.length ≤ t_NumParams := by omega
  refine ⟨rfl, rfl, ?_, ?_, ?_⟩
  · intro h0
    subst h0
    simp [Estimate, trialsOf, trials, reduction, h1, Initialize, Reset]
  · intro hneg
    simp [Estimate, h1, Initialize, hneg]
  · intro hnn hrun
    exact ((Estimate_return_value_aux T S t_NumParams (self.Initialize Threshold MaxIterations)
      Data hnn hrun).2.1 hlen)

/-- C13, for `RANSAC<Line2DModel, 2>` and the three points (0,0), (10,0), (0,10):
`Initialize(-1, 0)` stores the threshold -1 and the iteration count 0, and `Estimate`
then returns `true`. -/
theorem Initialize_accepts_every_configuration_witness :
    (freshLine.Initialize (.fin (-1)) 0).m_Threshold = .fin (-1) ∧
    (freshLine.Initialize (.fin (-1)) 0).m_MaxIterations = 0 ∧
    Estimate (Line2DClass sqrtQ) rotShuffler 2 (freshLine.Initialize (.fin (-1)) 0) spread3 =
      .ok (true, Reset (freshLine.Initialize (.fin (-1)) 0)) :=
  have h := Initialize_accepts_every_configuration (Line2DClass sqrtQ) rotShuffler 2
    freshLine (.fin (-1)) 0 spread3 (by decide)
  ⟨h.1, h.2.1, h.2.2.1 rfl⟩

/-- C13 fails as stated: `Initialize(-1, 2)` and `Initialize(0, -3)` are accepted and
stored as given. With the threshold -1 a later `Estimate` runs its two iterations and
returns `true`; with the iteration count -3 it runs as far as the allocation of its
buffers and ends with an exception. -/
theorem Initialize_stores_a_nonpositive_configuration :
    (freshLine.Initialize (.fin (-1)) 2).m_Threshold = .fin (-1) ∧
    VPFloat.le (.fin (-1)) (.fin 0) = true ∧
    Estimate (Line2DClass sqrtQ) rotShuffler 2 (freshLine.Initialize (.fin (-1)) 2) onLineY0 =
      .ok (true, { freshLine.Initialize (.fin (-1)) 2 with m_RandEngines := 2 }) ∧
    (freshLine.Initialize (.fin 0) (-3)).m_MaxIterations = -3 ∧
    Estimate (Line2DClass sqrtQ) rotShuffler 2 (freshLine.Initialize (.fin 0) (-3)) onLineY0 =
      .error .lengthError := by
  decide!

/-- The running best score is 0 and the best index is -1 in every estimator a caller can
hold, also after an `Estimate` that was left by an exception: the only writes of another
value are those of the second loop of `Estimate`, and `Reset` follows them. -/
theorem reachable_score_reset (T : ModelClass M) (S : Shuffler E) (t_NumParams : Nat)
    (self : RANSAC M E) (hreach : Reachable T S t_NumParams self) :
    self.m_BestModelScore = VPFloat.fin 0 ∧ self.m_BestModelIdx = -1 := by
  induction hreach with
  | constructed engines thr0 it0 => exact ⟨rfl, rfl⟩
  | afterReset s _ _ => exact ⟨rfl, rfl⟩
  | afterInitialize s Threshold MaxIterations _ ih => exact ih
  | afterEstimate s s1 Data b _ hcall ih =>
    cases b with
    | true =>
      obtain ⟨-, -, res, e, -, hs1⟩ := Estimate_true_inv T S t_NumParams s s1 Data hcall
      rw [hs1]
      exact ⟨rfl, rfl⟩
    | false =>
      unfold Estimate at hcall
      split at hcall
      · simp only [Except.ok.injEq, Prod.mk.injEq, true_and] at hcall
        rw [← hcall]
        exact ih
      · split at hcall
        · cases hcall
        · split at hcall
          · cases hcall
          · simp at hcall
  | afterLengthError s Data _ _ _ ih => exact ih
  | afterThrowingIteration s Data x models e _ _ _ _ ih => exact ih

/-- C17, as the code has it. In every estimator a caller can hold, after the constructor
and after any calls of `Reset`, `Initialize` and `Estimate`, however they ended, the
running best score is 0 and the best index is -1, so the second loop of every `Estimate`
starts from the score 0. The constructor and `Reset` leave the data copy and the model
buffer empty, `Initialize` and an `Estimate` that returns `false` leave them as they
were, and an `Estimate` that returns `true` leaves them empty. An `Estimate` on more than
`t_NumParams` observations with a negative `m_MaxIterations` is left by the exception of
`std::vector<VPFloat>(m_MaxIterations)` after `m_Data = Data` and before `Reset`: the
estimator the caller then holds has the copy of the data, which is not empty. -/
theorem transient_state_after_every_call (T : ModelClass M) (S : Shuffler E)
    (t_NumParams : Nat) (self : RANSAC M E) (hreach : Reachable T S t_NumParams self) :
    (self.m_BestModelScore = VPFloat.fin 0 ∧ self.m_BestModelIdx = -1) ∧
    (∀ (engines : E) (thr0 : VPFloat) (it0 : Int),
      TransientReset (new engines thr0 it0 : RANSAC M E)) ∧
    TransientReset (Reset self) ∧
    (∀ (Threshold : VPFloat) (MaxIterations : Int),
      (self.Initialize Threshold MaxIterations).m_Data = self.m_Data ∧
      (self.Initialize Threshold MaxIterations).m_SampledModels = self.m_SampledModels ∧
      (self.Initialize Threshold MaxIterations).m_BestModelScore = VPFloat.fin 0 ∧
      (self.Initialize Threshold MaxIterations).m_BestModelIdx = -1) ∧
    (∀ (Data : List AbstractParameter) (s1 : RANSAC M E),
      Estimate T S t_NumParams self Data = .ok (true, s1) →
      TransientReset s1 ∧
      ∃ res e, trialsOf T S t_NumParams self Data = .ok (res, e) ∧
        s1 = Reset (reduction res.length res
          { self with
            m_Data := Data
            m_SampledModels := res.map (fun r => r.Model)
            m_RandEngines := e }) ∧
        ({ self with
            m_Data := Data
            m_SampledModels := res.map (fun r => r.Model)
            m_RandEngines := e } : RANSAC M E).m_BestModelScore = VPFloat.fin 0) ∧
    (∀ (Data : List AbstractParameter) (s1 : RANSAC M E),
      Estimate T S t_NumParams self Data = .ok (false, s1) →
      s1 = self ∧ Data.length ≤ t_NumParams) ∧
    (∀ (Data : List AbstractParameter),
      t_NumParams < Data.length → self.m_MaxIterations < 0 →
      Estimate T S t_NumParams self Data = .error .lengthError ∧
      Reachable T S t_NumParams { self with m_Data := Data } ∧
      ({ self with m_Data := Data } : RANSAC M E).m_Data = Data ∧ Data ≠ [] ∧
      ¬ TransientReset ({ self with m_Data := Data } : RANSAC M E) ∧
      ({ self with m_Data := Data } : RANSAC M E).m_BestModelScore = VPFloat.fin 0 ∧
      ({ self with m_Data := Data } : RANSAC M E).m_BestModelIdx = -1) := by
  have hinv := reachable_score_reset T S t_NumParams self hreach
  refine ⟨hinv, fun _ _ _ => ⟨rfl, rfl, rfl, rfl⟩, ⟨rfl, rfl, rfl, rfl⟩,
    fun _ _ => ⟨rfl, rfl, hinv.1, hinv.2⟩, ?_, ?_, ?_⟩
  · intro Data s1 hcall
    obtain ⟨-, -, res, e, hres, hs1⟩ := Estimate_true_inv T S t_NumParams self s1 Data hcall
    refine ⟨?_, res, e, hres, hs1, hinv.1⟩
    rw [hs1]
    exact ⟨rfl, rfl, rfl, rfl⟩
  · intro Data s1 hcall
    unfold Estimate at hcall
    split at hcall
    · rename_i hle
      simp only [Except.ok.injEq, Prod.mk.injEq, true_and] at hcall
      exact ⟨hcall.symm, hle⟩
    · split at hcall
      · cases hcall
      · split at hcall
        · cases hcall
        · simp at hcall
  · intro Data hlen hneg
    have h1 : ¬ Data.length ≤ t_NumParams := by omega
    have hne : Data ≠ [] := by
      intro h0
      rw [h0] at hlen
      simp at hlen
    refine ⟨by simp [Estimate, h1, hneg],
      Reachable.afterLengthError self Data hreach hlen hneg, rfl, hne, ?_, hinv.1, hinv.2⟩
    intro hreset
    exact hne hreset.1

/-- C17, for `RANSAC<Line2DModel, 2>`: the estimator after the constructor,
`Initialize(0.5, 2)` and an `Estimate` on four points of the line y = 0 that returned
`true` has the running score 0 and the best index -1. -/
theorem transient_state_after_every_call_witness :
    Estimate (Line2DClass sqrtQ) rotShuffler 2 freshLine onLineY0 =
      .ok (true, afterOnLineY0) ∧
    afterOnLineY0.m_BestModelScore = VPFloat.fin 0 ∧ afterOnLineY0.m_BestModelIdx = -1 :=
  have hcall : Estimate (Line2DClass sqrtQ) rotShuffler 2 freshLine onLineY0 =
      .ok (true, afterOnLineY0) := by decide!
  have h := transient_state_after_every_call (Line2DClass sqrtQ) rotShuffler 2 afterOnLineY0
    (Reachable.afterEstimate freshLine afterOnLineY0 onLineY0 true
      (Reachable.afterInitialize _ (.fin (1 / 2)) 2 (Reachable.constructed 0 (.fin 0) 0)) hcall)
  ⟨hcall, h.1.1, h.1.2⟩

/-- C17 fails as stated: after the constructor and `Initialize(0.5, -3)`, `Estimate` on
four points ends with the exception of `std::vector<VPFloat>(m_MaxIterations)`; the
assignment `m_Data = Data` has run and `Reset` has not, so the estimator the caller
holds after this failed call has a data copy of four observations and its transient
state is not reset. -/
theorem Estimate_length_error_leaves_the_data_copy :
    Estimate (Line2DClass sqrtQ) rotShuffler 2
      ((RANSAC.new 0 (.fin 0) 0).Initialize (.fin (1 / 2)) (-3)) onLineY0 =
      .error .lengthError ∧
    Reachable (Line2DClass sqrtQ) rotShuffler 2
      ({ (RANSAC.new 0 (.fin 0) 0).Initialize (.fin (1 / 2)) (-3) with
          m_Data := onLineY0 } : RANSAC Line2DModel Nat) ∧
    ({ (RANSAC.new 0 (.fin 0) 0).Initialize (.fin (1 / 2)) (-3) with
        m_Data := onLineY0 } : RANSAC Line2DModel Nat).m_Data = onLineY0 ∧
    onLineY0.length = 4 ∧
    ¬ TransientReset
      ({ (RANSAC.new 0 (.fin 0) 0).Initialize (.fin (1 / 2)) (-3) with
          m_Data := onLineY0 } : RANSAC Line2DModel Nat) :=
  ⟨by decide!,
    Reachable.afterLengthError _ onLineY0
      (Reachable.afterInitialize _ (.fin (1 / 2)) (-3) (Reachable.constructed 0 (.fin 0) 0))
      (by decide) (by decide),
    rfl, rfl, fun h => absurd h.1 (by simp [onLineY0])⟩

end GRANSAC.RANSAC

/-! ## What the result of `Estimate` depends on -/

namespace GRANSAC.RANSAC

variable {M E : Type}

/-- Two estimators that agree on the configuration, the engines and the best result are
equal after `Reset`. -/
theorem Reset_eq_of_agree (a b : RANSAC M E)
    (h1 : a.m_Threshold = b.m_Threshold) (h2 : a.m_MaxIterations = b.m_MaxIterations)
    (h3 : a.m_RandEngines = b.m_RandEngines) (h4 : a.m_BestModel = b.m_BestModel)
    (h5 : a.m_BestInliers = b.m_BestInliers) : Reset a = Reset b := by
  cases a
  cases b
  simp only at h1 h2 h3 h4 h5
  simp only [Reset, h1, h2, h3, h4, h5]

/-- From the same running score and the same best result the second loop leaves the same
running score and the same best result. -/
theorem reduction_agree (size : Nat) (res : List (TrialResult M)) (a b : RANSAC M E)
    (hs : a.m_BestModelScore = b.m_BestModelScore) (hm : a.m_BestModel = b.m_BestModel)
    (hi : a.m_BestInliers = b.m_BestInliers) :
    (reduction size res a).m_BestModelScore = (reduction size res b).m_BestModelScore ∧
    (reduction size res a).m_BestModel = (reduction size res b).m_BestModel ∧
    (reduction size res a).m_BestInliers = (reduction size res b).m_BestInliers := by
  induction res generalizing a b with
  | nil => exact ⟨hs, hm, hi⟩
  | cons r rest ih =>
    simp only [reduction, hs]
    split
    · exact ih _ _ rfl rfl rfl
    · exact ih _ _ hs hm hi

/-- From the same running score, when some slot beats it, the second loop leaves the same
best result whatever was stored before. -/
theorem reduction_overwrites (size : Nat) (res : List (TrialResult M)) (a b : RANSAC M E)
    (hs : a.m_BestModelScore = b.m_BestModelScore)
    (hbeat : ∃ r ∈ res, VPFloat.lt a.m_BestModelScore r.InlierFraction = true) :
    (reduction size res a).m_BestModel = (reduction size res b).m_BestModel ∧
    (reduction size res a).m_BestInliers = (reduction size res b).m_BestInliers := by
  induction res generalizing a b with
  | nil =>
    obtain ⟨r, hr, -⟩ := hbeat
    simp at hr
  | cons r rest ih =>
    by_cases hlt : VPFloat.lt a.m_BestModelScore r.InlierFraction = true
    · have hlt2 := hlt
      rw [hs] at hlt2
      simp only [reduction, hlt, hlt2, if_true]
      have hag := reduction_agree size rest
        ({ a with
            m_BestModelScore := r.InlierFraction
            m_BestModelIdx := (size : Int) - 1
            m_BestModel := some r.Model
            m_BestInliers := r.Inliers } : RANSAC M E)
        ({ b with
            m_BestModelScore := r.InlierFraction
            m_BestModelIdx := (size : Int) - 1
            m_BestModel := some r.Model
            m_BestInliers := r.Inliers } : RANSAC M E) rfl rfl rfl
      exact hag.2
    · have hlt2 := hlt
      rw [hs] at hlt2
      simp only [reduction, hlt, hlt2]
      apply ih _ _ hs
      obtain ⟨x, hx, hxlt⟩ := hbeat
      rcases List.mem_cons.mp hx with rfl | hx
      · exact absurd hxlt hlt
      · exact ⟨x, hx, hxlt⟩

/-- The second loop followed by `Reset` gives the same estimator from two estimators that
agree on the configuration, the engines and the running score, and either on the best
result or in that some slot beats the running score. -/
theorem Reset_reduction_congr (size : Nat) (res : List (TrialResult M)) (a b : RANSAC M E)
    (hthr : a.m_Threshold = b.m_Threshold) (hiter : a.m_MaxIterations = b.m_MaxIterations)
    (heng : a.m_RandEngines = b.m_RandEngines)
    (hscore : a.m_BestModelScore = b.m_BestModelScore)
    (hbest : (a.m_BestModel = b.m_BestModel ∧ a.m_BestInliers = b.m_BestInliers) ∨
      ∃ r ∈ res, VPFloat.lt a.m_BestModelScore r.InlierFraction = true) :
    Reset (reduction size res a) = Reset (reduction size res b) := by
  have hfa := reduction_frame size res a
  have hfb := reduction_frame size res b
  have hb : (reduction size res a).m_BestModel = (reduction size res b).m_BestModel ∧
      (reduction size res a).m_BestInliers = (reduction size res b).m_BestInliers := by
    rcases hbest with ⟨hm, hi⟩ | hbeat
    · exact (reduction_agree size res a b hscore hm hi).2
    · exact reduction_overwrites size res a b hscore hbeat
  exact Reset_eq_of_agree _ _
    (hfa.2.2.2.1.trans (hthr.trans hfb.2.2.2.1.symm))
    (hfa.2.2.1.trans (hiter.trans hfb.2.2.1.symm))
    (hfa.2.2.2.2.trans (heng.trans hfb.2.2.2.2.symm))
    hb.1 hb.2

/-- C14, as the code has it. On more than `t_NumParams` observations the result of
`Estimate` is determined by the data, the threshold, the iteration count, the state of
the random engines, the running score and the best result stored: two estimators that
agree on these give the same outcome, the best model and the best inliers included. A
call that returned `true` leaves the engines in the state the shuffles of its iterations
left them in, and that is where the next call on the same estimator starts; were the
engines put back to the state the first call started from, the call would return `true`
again and leave the same estimator, best model and best inliers included. -/
theorem Estimate_is_determined_by_engines_configuration_and_data (T : ModelClass M)
    (S : Shuffler E) (t_NumParams : Nat) (self other : RANSAC M E)
    (Data : List AbstractParameter) (hlen : t_NumParams < Data.length)
    (hthr : self.m_Threshold = other.m_Threshold)
    (hiter : self.m_MaxIterations = other.m_MaxIterations)
    (heng : self.m_RandEngines = other.m_RandEngines)
    (hscore : self.m_BestModelScore = other.m_BestModelScore)
    (hmodel : self.m_BestModel = other.m_BestModel)
    (hinl : self.m_BestInliers = other.m_BestInliers) :
    Estimate T S t_NumParams self Data = Estimate T S t_NumParams other Data ∧
    (∀ s1, Estimate T S t_NumParams self Data = .ok (true, s1) →
      ∃ res, trialsOf T S t_NumParams self Data = .ok (res, s1.m_RandEngines) ∧
        trialsOf T S t_NumParams s1 Data =
          trials T S t_NumParams self.m_Threshold Data self.m_MaxIterations.toNat 0
            s1.m_RandEngines) ∧
    (∀ s1, Estimate T S t_NumParams self Data = .ok (true, s1) →
      self.m_BestModelScore = VPFloat.fin 0 →
      Estimate T S t_NumParams { s1 with m_RandEngines := self.m_RandEngines } Data =
        .ok (true, s1)) := by
  have h1 : ¬ Data.length ≤ t_NumParams := by omega
  refine ⟨?_, ?_, ?_⟩
  · have htr : trialsOf T S t_NumParams self Data = trialsOf T S t_NumParams other Data := by
      simp only [trialsOf, hthr, hiter, heng]
    by_cases hneg : self.m_MaxIterations < 0
    · have hneg2 : other.m_MaxIterations < 0 := hiter ▸ hneg
      simp only [Estimate, h1, if_false, hneg, hneg2, if_true]
    · have hneg2 : ¬ other.m_MaxIterations < 0 := hiter ▸ hneg
      simp only [Estimate, h1, if_false, hneg, hneg2]
      rw [htr]
      cases hres : trialsOf T S t_NumParams other Data with
      | error x => rfl
      | ok p =>
        obtain ⟨res, e⟩ := p
        simp only
        congr 2
        exact Reset_reduction_congr res.length res _ _ hthr hiter rfl hscore
          (Or.inl ⟨hmodel, hinl⟩)
  · intro s1 hcall
    obtain ⟨-, -, res, e, hres, hs1⟩ := Estimate_true_inv T S t_NumParams self s1 Data hcall
    have hf := reduction_frame res.length res
      ({ self with
          m_Data := Data
          m_SampledModels := res.map (fun r => r.Model)
          m_RandEngines := e } : RANSAC M E)
    have he : s1.m_RandEngines = e := by rw [hs1]; exact hf.2.2.2.2
    have ht : s1.m_Threshold = self.m_Threshold := by rw [hs1]; exact hf.2.2.2.1
    have hi : s1.m_MaxIterations = self.m_MaxIterations := by rw [hs1]; exact hf.2.2.1
    refine ⟨res, by rw [he]; exact hres, ?_⟩
    simp only [trialsOf, ht, hi]
  · intro s1 hcall hreset
    obtain ⟨-, hnn, res, e, hres, hs1⟩ :=
      Estimate_true_inv T S t_NumParams self s1 Data hcall
    have hf := reduction_frame res.length res
      ({ self with
          m_Data := Data
          m_SampledModels := res.map (fun r => r.Model)
          m_RandEngines := e } : RANSAC M E)
    have ht : s1.m_Threshold = self.m_Threshold := by rw [hs1]; exact hf.2.2.2.1
    have hi : s1.m_MaxIterations = self.m_MaxIterations := by rw [hs1]; exact hf.2.2.1
    have hsc : s1.m_BestModelScore = VPFloat.fin 0 := by rw [hs1]; rfl
    have htr : trialsOf T S t_NumParams
        ({ s1 with m_RandEngines := self.m_RandEngines } : RANSAC M E) Data =
        .ok (res, e) := by
      rw [← hres]
      simp only [trialsOf, ht, hi]
    have h2 : ¬ s1.m_MaxIterations < 0 := by rw [hi]; omega
    have hbest : (s1.m_BestModel = self.m_BestModel ∧ s1.m_BestInliers = self.m_BestInliers) ∨
        ∃ r ∈ res, VPFloat.lt s1.m_BestModelScore r.InlierFraction = true := by
      rcases reduction_cases res.length res
        ({ self with
            m_Data := Data
            m_SampledModels := res.map (fun r => r.Model)
            m_RandEngines := e } : RANSAC M E) with ⟨heq, -⟩ | ⟨x, hx, hlt, -, -, -⟩
      · left
        rw [hs1, heq]
        exact ⟨rfl, rfl⟩
      · right
        refine ⟨x, hx, ?_⟩
        rw [hsc, ← hreset]
        exact hlt
    have hfinal := Reset_reduction_congr res.length res
      ({ ({ s1 with m_RandEngines := self.m_RandEngines } : RANSAC M E) with
          m_Data := Data
          m_SampledModels := res.map (fun r => r.Model)
          m_RandEngines := e } : RANSAC M E)
      ({ self with
          m_Data := Data
          m_SampledModels := res.map (fun r => r.Model)
          m_RandEngines := e } : RANSAC M E)
      ht hi rfl (hsc.trans hreset.symm) hbest
    simp only [Estimate, h1, h2, if_false, htr]
    rw [hfinal, ← hs1]

/-- C14, for `RANSAC<Line2DModel, 2>` on six points of two lines: the estimator
`freshLine` and one that differs from it in its best index give the same outcome, and
`Estimate` from `afterTwoLines1` with the engines put back to the state 0 leaves
`afterTwoLines1` again. -/
theorem Estimate_is_determined_by_engines_configuration_and_data_witness :
    Estimate (Line2DClass sqrtQ) rotShuffler 2 freshLine twoLines =
      Estimate (Line2DClass sqrtQ) rotShuffler 2 { freshLine with m_BestModelIdx := 5 }
        twoLines ∧
    Estimate (Line2DClass sqrtQ) rotShuffler 2 freshLine twoLines =
      .ok (true, afterTwoLines1) ∧
    Estimate (Line2DClass sqrtQ) rotShuffler 2
      { afterTwoLines1 with m_RandEngines := freshLine.m_RandEngines } twoLines =
      .ok (true, afterTwoLines1) :=
  have hcall : Estimate (Line2DClass sqrtQ) rotShuffler 2 freshLine twoLines =
      .ok (true, afterTwoLines1) := by decide!
  have h := Estimate_is_determined_by_engines_configuration_and_data (Line2DClass sqrtQ)
    rotShuffler 2 freshLine { freshLine with m_BestModelIdx := 5 } twoLines (by decide)
    rfl rfl rfl rfl rfl rfl
  ⟨h.1, hcall, h.2.2 afterTwoLines1 hcall rfl⟩

/-- C14 fails as stated: a fresh `RANSAC<Line2DModel, 2>` after `Initialize(0.5, 2)` is
run twice on the same six points, three on y = 0 and three on y = 5. Both calls return
`true`. The first leaves the engines in another state than it found them in, so the
second draws other samples: the best model is the line y = 0 with the inlier (2,0) after
the first call, and the line y = 5 with the inlier (0,5) after the second. -/
theorem repeated_Estimate_gives_another_best_model :
    Estimate (Line2DClass sqrtQ) rotShuffler 2 freshLine twoLines =
      .ok (true, afterTwoLines1) ∧
    Estimate (Line2DClass sqrtQ) rotShuffler 2 afterTwoLines1 twoLines =
      .ok (true, afterTwoLines2) ∧
    afterTwoLines1.GetBestModel = some lineY0 ∧
    afterTwoLines2.GetBestModel = some lineY5 ∧
    lineY0.m_d ≠ lineY5.m_d ∧
    afterTwoLines1.GetBestInliers = [pt 2 0] ∧
    afterTwoLines2.GetBestInliers = [pt 0 5] ∧
    afterTwoLines1.GetBestModel ≠ afterTwoLines2.GetBestModel ∧
    afterTwoLines1.GetBestInliers ≠ afterTwoLines2.GetBestInliers := by
  decide!

end GRANSAC.RANSAC
